import Mathlib

/-!
Verification of the csvtoxml pipeline (CSV transcript → NLE timeline XML).

This file gives a shallow embedding of the core of the repository:
the timecode engine (`src/csvtoxml/core/timecode.py`), the CSV row parser
(`src/csvtoxml/core/parser.py`), the segment builder
(`src/csvtoxml/core/segment.py`) and the timing / color-mapping /
media-resolution logic of the two writers
(`src/csvtoxml/writers/premiere.py`, `src/csvtoxml/writers/davinci.py`).

Modelling conventions:
- Python floats are modelled as exact rationals (`ℚ`); Python `round`
  (banker's rounding, half-to-even) is `pyRound`, `int(...)` truncation is
  `pyTrunc`, float `%` is `pyMod`.
- Python `str` values are Lean `String`s, but all character-level work
  (split, strip, int parsing, decimal formatting) is done on `List Char`
  so that concrete runs reduce in the kernel.
- Fallible Python code (uncaught `ValueError` from `int(...)`, the
  `assert` in the segment builder, `IndexError`, `ZeroDivisionError`)
  is modelled with `Option`/`Except`: `none`/`.error` means the Python
  code raises.
- `csv.DictReader` and the filesystem are abstracted: a CSV resource is
  an `Option (List (List String))` (`none` = missing file, otherwise the
  list of comma-split records, header row first).
-/

namespace CsvToXml

/-! ## Python numeric primitives -/

/-- Python `round(x)` on an exact rational: round half to even. -/
def pyRound (q : ℚ) : ℤ :=
  let f := ⌊q⌋
  let r := q - (f : ℚ)
  if r < 1/2 then f
  else if (1 : ℚ)/2 < r then f + 1
  else if f % 2 = 0 then f else f + 1

/-- Python `int(x)` on a float value: truncation toward zero. -/
def pyTrunc (q : ℚ) : ℤ :=
  if q < 0 then ⌈q⌉ else ⌊q⌋

/-- Python float `%` (sign follows the divisor; here only used with positive
divisors): `q % d = q - d * (q // d)`.  For the nonnegative operands that
occur in this development IEEE-754 `fmod` is exact, so no rounding step is
modelled. -/
def pyMod (q d : ℚ) : ℚ :=
  q - d * (⌊q / d⌋ : ℚ)

/-! ## IEEE-754 double precision

CPython `float` is an IEEE-754 binary64 value.  The finite doubles (with the
exponent range ignored — every value in this development is many orders of
magnitude away from overflow and underflow) are the rationals `m * 2 ^ e`
with `|m| < 2 ^ 53`.  `roundD` sends an exact rational to the nearest such
value, ties to even, which is what every arithmetic operation on doubles
does to its exact result. -/

/-- `q` is representable as an IEEE-754 binary64 value (exponent range
ignored). -/
def Repr53 (q : ℚ) : Prop :=
  ∃ m e : ℤ, q = (m : ℚ) * 2 ^ e ∧ |m| < 2 ^ 53

/-- Round an exact rational to the nearest IEEE-754 binary64 value
(53-bit significand, round to nearest, ties to even). -/
def roundD (q : ℚ) : ℚ :=
  if q = 0 then 0
  else
    ((pyRound (q * 2 ^ ((52 : ℤ) - Int.log 2 |q|)) : ℤ) : ℚ) *
      2 ^ (Int.log 2 |q| - 52)

/-- Double subtraction: the exact difference, rounded. -/
def fsub (x y : ℚ) : ℚ := roundD (x - y)

/-- Double multiplication: the exact product, rounded. -/
def fmul (x y : ℚ) : ℚ := roundD (x * y)

/-- Double division: the exact quotient, rounded. -/
def fdiv (x y : ℚ) : ℚ := roundD (x / y)

/-- CPython float floor division `x // d` (`float_divmod` in
`Objects/floatobject.c`, positive-operand path): take the exact `fmod`,
subtract and divide in double arithmetic, floor, and bump the result when
`div - floor(div) > 0.5`. -/
def pyFloorDivF (x d : ℚ) : ℚ :=
  let m := pyMod x d
  let dv := fdiv (fsub x m) d
  let fd : ℤ := ⌊dv⌋
  if dv - (fd : ℚ) > 1/2 then ((fd : ℚ) + 1) else (fd : ℚ)

/-! ## Python string primitives (character-list level) -/

/-- Python whitespace as stripped by `str.strip()` / accepted by `int()`
(ASCII subset: space 32, tab 9, newline 10, CR 13, vertical tab 11, form
feed 12). -/
def isPySpace (c : Char) : Bool :=
  c.toNat = 32 || c.toNat = 9 || c.toNat = 10 || c.toNat = 13 ||
    c.toNat = 11 || c.toNat = 12

/-- An ASCII decimal digit. -/
def isPyDigit (c : Char) : Bool :=
  48 ≤ c.toNat && c.toNat ≤ 57

/-- Python `str.strip()`. -/
def pyStrip (cs : List Char) : List Char :=
  ((cs.dropWhile isPySpace).reverse.dropWhile isPySpace).reverse

/-- `str.strip()` on a `String`. -/
def pyStripStr (s : String) : String :=
  String.mk (pyStrip s.toList)

/-- ASCII `str.lower()`. -/
def pyLower (s : String) : String :=
  String.mk (s.toList.map Char.toLower)

/-- ASCII `str.upper()`. -/
def pyUpper (s : String) : String :=
  String.mk (s.toList.map Char.toUpper)

/-- Accumulate the value of a big-endian digit string. -/
def digitsToNat (cs : List Char) : ℕ :=
  cs.foldl (fun a c => 10 * a + (c.toNat - 48)) 0

/-- Python `int(s)` for a decimal string: strip whitespace, optional single
sign, then decimal digits; anything else raises `ValueError` (`none`). -/
def pyIntChars (cs : List Char) : Option ℤ :=
  match pyStrip cs with
  | [] => none
  | c :: rest =>
    if c = '+' then
      if rest ≠ [] ∧ rest.all isPyDigit then some (digitsToNat rest : ℤ) else none
    else if c = '-' then
      if rest ≠ [] ∧ rest.all isPyDigit then some (-(digitsToNat rest : ℤ)) else none
    else
      if (c :: rest).all isPyDigit then some (digitsToNat (c :: rest) : ℤ) else none

/-- Python `str.split(":")` (after `1`-char separator): every occurrence
splits, empty pieces are kept, the empty string yields one empty piece. -/
def splitOnColon : List Char → List (List Char)
  | [] => [[]]
  | c :: rest =>
    if c = ':' then [] :: splitOnColon rest
    else
      match splitOnColon rest with
      | [] => [[c]]
      | g :: gs => (c :: g) :: gs

/-- Python `timecode.replace(";", ":")` (single-character replace). -/
def replaceSemicolons (cs : List Char) : List Char :=
  cs.map fun c => if c = ';' then ':' else c

/-- Little-endian decimal digits, structurally recursive on a fuel bound
(the fuel `n` always suffices, see `natToDigitsLE_unfold`). -/
def natToDigitsLEAux : ℕ → ℕ → List ℕ
  | 0, n => [n]
  | fuel+1, n => if n < 10 then [n] else n % 10 :: natToDigitsLEAux fuel (n / 10)

/-- Little-endian decimal digits of a natural number. -/
def natToDigitsLE (n : ℕ) : List ℕ :=
  natToDigitsLEAux n n

/-- The character of a decimal digit. -/
def digitChar (d : ℕ) : Char :=
  Char.ofNat (48 + d)

/-- Big-endian decimal representation of a natural number. -/
def decDigits (n : ℕ) : List Char :=
  (natToDigitsLE n).reverse.map digitChar

/-- Python `f"{n:02d}"` for a nonnegative value: zero-pad to width 2. -/
def pad2Nat (n : ℕ) : List Char :=
  if n < 10 then '0' :: decDigits n else decDigits n

/-- Python `f"{n:02d}"` (sign counts toward the width). -/
def pad2Int (n : ℤ) : List Char :=
  if n < 0 then '-' :: decDigits n.natAbs else pad2Nat n.toNat

/-- Python `str(n)` for an integer. -/
def intRepr (n : ℤ) : String :=
  if n < 0 then String.mk ('-' :: decDigits n.natAbs) else String.mk (decDigits n.toNat)

/-- Python `needle in haystack` substring test. -/
def listContainsSub (hay needle : List Char) : Bool :=
  match hay with
  | [] => needle = []
  | _ :: rest => List.isPrefixOf needle hay || listContainsSub rest needle

/-! ## `core/timecode.py` -/

/-- `PPRO_TICKS_PER_SECOND` from `core/timecode.py`. -/
def PPRO_TICKS_PER_SECOND : ℤ := 254016000000

/-- The numeric core of `timecode_to_frames`:
`int(round((hours*3600 + minutes*60 + seconds) * fps + frames))`. -/
def tcFrames (hours minutes seconds frames : ℤ) (fps : ℚ) : ℤ :=
  pyRound (((hours * 3600 + minutes * 60 + seconds : ℤ) : ℚ) * fps + (frames : ℚ))

/-- `timecode_to_frames` from `core/timecode.py`.  `none` models an uncaught
`ValueError` raised by `map(int, parts)`. -/
def timecode_to_frames (timecode : String) (fps : ℚ) : Option ℤ :=
  let cs := timecode.toList
  if cs = [] ∨ pyStrip cs = [] then some 0
  else
    match splitOnColon (replaceSemicolons cs) with
    | [h, m, s, f] => do
      let hours ← pyIntChars h
      let minutes ← pyIntChars m
      let seconds ← pyIntChars s
      let frames ← pyIntChars f
      some (tcFrames hours minutes seconds frames fps)
    | [m, s, f] => do
      let minutes ← pyIntChars m
      let seconds ← pyIntChars s
      let frames ← pyIntChars f
      some (tcFrames 0 minutes seconds frames fps)
    | [s, f] => do
      let seconds ← pyIntChars s
      let frames ← pyIntChars f
      some (tcFrames 0 0 seconds frames fps)
    | _ => some 0

/-- `frames_to_timecode` from `core/timecode.py`, with every
floating-point operation carried out in IEEE-754 double precision as
CPython runs it: the `int` argument is converted to a double (`roundD`),
`total_seconds = frames / fps` is a rounded division (`fdiv`), `//` is
CPython float floor division (`pyFloorDivF`), `%` is float modulo
(`pyMod`; exact for these operands), and the remaining-frames expression
rounds its subtraction and multiplication (`fsub`, `fmul`).  `none` models
the `ZeroDivisionError` raised when `fps = 0`. -/
def frames_to_timecode (frames : ℤ) (fps : ℚ) : Option String :=
  if fps = 0 then none
  else
    let ts := fdiv (roundD (frames : ℚ)) fps
    let hours : ℤ := pyTrunc (pyFloorDivF ts 3600)
    let minutes : ℤ := pyTrunc (pyFloorDivF (pyMod ts 3600) 60)
    let seconds : ℤ := pyTrunc (pyMod ts 60)
    let remaining : ℤ := pyRound (fmul (fsub ts (roundD ((pyTrunc ts : ℤ) : ℚ))) fps)
    some (String.mk (pad2Int hours ++ (':' :: (pad2Int minutes ++ (':' ::
      (pad2Int seconds ++ (':' :: pad2Int remaining)))))))

/-- `get_fps_from_rate` from `core/timecode.py`. -/
def get_fps_from_rate (timebase : ℤ) (ntsc : Bool) : ℚ :=
  if ntsc then (timebase : ℚ) * 1000 / 1001 else (timebase : ℚ)

/-- Canonical 4-field timecode string `HH:MM:SS:FF` (as produced by
`frames_to_timecode` for nonnegative components). -/
def mkTc4 (h m s f : ℕ) : String :=
  String.mk (pad2Nat h ++ (':' :: (pad2Nat m ++ (':' :: (pad2Nat s ++ (':' :: pad2Nat f))))))

/-- Canonical 3-field timecode string `MM:SS:FF`. -/
def mkTc3 (m s f : ℕ) : String :=
  String.mk (pad2Nat m ++ (':' :: (pad2Nat s ++ (':' :: pad2Nat f))))

/-- Canonical 2-field timecode string `SS:FF`. -/
def mkTc2 (s f : ℕ) : String :=
  String.mk (pad2Nat s ++ (':' :: pad2Nat f))

/-- A 5-field colon-separated numeric string (unsupported field count). -/
def mkTc5 (a b c d e : ℕ) : String :=
  String.mk (pad2Nat a ++ (':' :: (pad2Nat b ++ (':' :: (pad2Nat c ++ (':' :: (pad2Nat d ++ (':' :: pad2Nat e))))))))

/-! ## `core/parser.py` -/

/-- `CsvRow` from `core/parser.py`: its five dataclass fields
(`speaker`, `in_timecode`, `out_timecode`, `transcript`, `color`).
Note: the dataclass declares no `file_name` field. -/
structure CsvRow where
  speaker : String
  in_timecode : String
  out_timecode : String
  transcript : String
  color : String
deriving Repr, DecidableEq

/-- `CsvRow.is_gap`: `self.color.upper().startswith("GAP") if self.color
else False`. -/
def CsvRow.is_gap (r : CsvRow) : Bool :=
  if r.color = "" then false
  else List.isPrefixOf [ 'G', 'A', 'P' ] (r.color.toList.map Char.toUpper)

/-- `TARGET_HEADERS` from `core/parser.py`. -/
def TARGET_HEADERS : List String :=
  ["Speaker Name", "イン点", "アウト点", "文字起こし", "色選択"]

/-- The errors `parse_csv` can raise: `FileNotFoundError`,
`CsvFormatError("CSV file is empty or has no headers")`, and
`CsvFormatError(f"Missing required headers: ...")`. -/
inductive CsvError where
  | notFound
  | emptyHeaders
  | missingHeaders (missing : List String)
deriving Repr, DecidableEq

/-- `dict(zip(fieldnames, row)).get(h)` of `csv.DictReader`: the cell under
the last occurrence of header `h` (later duplicate keys overwrite earlier
ones); `none` when the header is absent or the row is too short
(`restval = None`). -/
def dictGet (fieldnames row : List String) (h : String) : Option String :=
  match ((fieldnames.enum.filter (fun p => p.2 = h)).getLast?).map (fun p => p.1) with
  | none => none
  | some i => row.get? i

/-- `(raw.get(h) or "").strip()` from `parse_csv`. -/
def cellOf (fieldnames row : List String) (h : String) : String :=
  pyStripStr ((dictGet fieldnames row h).getD "")

/-- `parse_csv` from `core/parser.py`, over an abstract CSV resource:
`none` models a missing file, `some records` the comma-split records with
the header row first.  `csv.DictReader` skips blank records (`[]`). -/
def parse_csv (file : Option (List (List String))) : Except CsvError (List CsvRow) :=
  match file with
  | none => Except.error CsvError.notFound
  | some records =>
    match records with
    | [] => Except.error CsvError.emptyHeaders
    | fieldnames :: data =>
      let missing := TARGET_HEADERS.filter (fun h => ¬ (h ∈ fieldnames))
      if missing ≠ [] then Except.error (CsvError.missingHeaders missing)
      else
        Except.ok (data.foldl (fun acc row =>
          if row = [] then acc
          else
            let speaker := cellOf fieldnames row "Speaker Name"
            let in_tc := cellOf fieldnames row "イン点"
            let out_tc := cellOf fieldnames row "アウト点"
            let text := cellOf fieldnames row "文字起こし"
            let color := cellOf fieldnames row "色選択"
            if in_tc = "" ∧ out_tc = "" ∧ color = "" then acc
            else acc ++ [{ speaker := speaker, in_timecode := in_tc, out_timecode := out_tc, transcript := text, color := color }]) [])

/-- The row built (or skipped) from one non-blank data record; used to state
what `parse_csv` returns. -/
def rowOfRecord (fieldnames row : List String) : Option CsvRow :=
  if row = [] then none
  else
    let in_tc := cellOf fieldnames row "イン点"
    let out_tc := cellOf fieldnames row "アウト点"
    let color := cellOf fieldnames row "色選択"
    if in_tc = "" ∧ out_tc = "" ∧ color = "" then none
    else some { speaker := cellOf fieldnames row "Speaker Name", in_timecode := in_tc, out_timecode := out_tc, transcript := cellOf fieldnames row "文字起こし", color := color }

/-! ## `core/segment.py` -/

/-- `Segment` from `core/segment.py`: its six dataclass fields.
Note: the dataclass declares no `file_name` field. -/
structure Segment where
  kind : String
  start_frames : ℤ
  end_frames : ℤ
  color : Option String := none
  transcript : Option String := none
  raw_rows : List CsvRow := []
deriving Repr, DecidableEq

/-- `Segment.duration_frames`: `max(0, end_frames - start_frames)`. -/
def Segment.duration_frames (s : Segment) : ℤ :=
  max 0 (s.end_frames - s.start_frames)

/-- `Segment.is_gap`: `kind == "gap"`. -/
def Segment.is_gap (s : Segment) : Bool :=
  s.kind = "gap"

/-- Python `repr` of a string (quotes; escaping of inner quotes elided). -/
def pyStrRepr (s : String) : String :=
  String.singleton (Char.ofNat 39) ++ s ++ String.singleton (Char.ofNat 39)

/-- The dataclass `repr(row)` interpolated into the builder's f-string
warnings. -/
def pyRepr (r : CsvRow) : String :=
  "CsvRow(speaker=" ++ pyStrRepr r.speaker ++ ", in_timecode=" ++
    pyStrRepr r.in_timecode ++ ", out_timecode=" ++ pyStrRepr r.out_timecode ++
    ", transcript=" ++ pyStrRepr r.transcript ++ ", color=" ++
    pyStrRepr r.color ++ ")"

/-- Warning `f"GAP row missing timecodes: [row]"`. -/
def gapWarnMissing (r : CsvRow) : String :=
  "GAP row missing timecodes: " ++ pyRepr r

/-- Warning `f"GAP out point <= in point: [row]"`. -/
def gapWarnInverted (r : CsvRow) : String :=
  "GAP out point <= in point: " ++ pyRepr r

/-- Warning `f"Block row missing required fields: [row]"`. -/
def blockWarnMissing (r : CsvRow) : String :=
  "Block row missing required fields: " ++ pyRepr r

/-- Warning `f"Out point <= in point: [row]"`. -/
def blockWarnInverted (r : CsvRow) : String :=
  "Out point <= in point: " ++ pyRepr r

/-- The loop state of `build_segments`: the accumulated `segments` and
`warnings` lists plus `current_color` / `current_block`. -/
structure BuildState where
  segments : List Segment
  warnings : List String
  current_color : Option String
  current_block : Option Segment
deriving Repr, DecidableEq

/-- The state `build_segments` starts from. -/
def initState : BuildState :=
  { segments := [], warnings := [], current_color := none, current_block := none }

/-- `[current_block] if current_block is not None else []`. -/
def flushBlock : Option Segment → List Segment
  | none => []
  | some b => [b]

/-- One iteration of the `for row in rows` loop of `build_segments`.
`none` models an uncaught exception (a `ValueError` from
`timecode_to_frames` or the `assert current_block is not None`). -/
def buildStep (fps : ℚ) (st : BuildState) (row : CsvRow) : Option BuildState :=
  let color := row.color
  if row.is_gap then
    let st1 :=
      match st.current_block with
      | some b => { st with segments := st.segments ++ [b], current_block := none, current_color := none }
      | none => st
    if row.in_timecode = "" ∨ row.out_timecode = "" then
      some { st1 with warnings := st1.warnings ++ [gapWarnMissing row] }
    else do
      let s ← timecode_to_frames row.in_timecode fps
      let e ← timecode_to_frames row.out_timecode fps
      if e ≤ s then
        some { st1 with warnings := st1.warnings ++ [gapWarnInverted row] }
      else
        some { st1 with segments := st1.segments ++
          [{ kind := "gap", start_frames := s, end_frames := e,
             color := some color, transcript := some row.transcript,
             raw_rows := [row] }] }
  else
    if row.in_timecode = "" ∨ row.out_timecode = "" ∨ color = "" then
      some { st with warnings := st.warnings ++ [blockWarnMissing row] }
    else do
      let i ← timecode_to_frames row.in_timecode fps
      let o ← timecode_to_frames row.out_timecode fps
      if o ≤ i then
        some { st with warnings := st.warnings ++ [blockWarnInverted row] }
      else if st.current_color ≠ some color then
        some { segments := st.segments ++ flushBlock st.current_block,
               warnings := st.warnings,
               current_color := some color,
               current_block := some { kind := "block", start_frames := i, end_frames := o, color := some color, transcript := some row.transcript, raw_rows := [row] } }
      else
        match st.current_block with
        | some b => some { st with current_block := some { b with end_frames := o, raw_rows := b.raw_rows ++ [row] } }
        | none => none

/-- `build_segments` from `core/segment.py`: fold the loop over the rows,
then flush the still-open block. -/
def build_segments (rows : List CsvRow) (fps : ℚ) :
    Option (List Segment × List String) := do
  let st ← List.foldlM (buildStep fps) initState rows
  some (st.segments ++ flushBlock st.current_block, st.warnings)

/-! ## `writers/premiere.py` -/

/-- `VALID_LABELS` from `writers/premiere.py` (16 label names). -/
def VALID_LABELS : List String :=
  ["Violet", "Rose", "Mango", "Yellow", "Lavender", "Caribbean",
   "Tan", "Forest", "Blue", "Purple", "Teal", "Brown", "Gray",
   "Iris", "Cerulean", "Magenta"]

/-- `LEGACY_COLOR_MAP` from `writers/premiere.py`. -/
def LEGACY_COLOR_MAP : List (String × String) :=
  [("rose", "Rose"), ("pink", "Rose"), ("cyan", "Caribbean"), ("blue", "Blue"),
   ("mint", "Mango"), ("green", "Forest"), ("yellow", "Yellow"),
   ("orange", "Mango"), ("red", "Rose"), ("purple", "Purple"),
   ("brown", "Brown"), ("gray", "Gray"), ("lavender", "Lavender"),
   ("tan", "Tan"), ("teal", "Teal"), ("magenta", "Magenta"),
   ("violet", "Violet"), ("forest", "Forest"), ("iris", "Iris"),
   ("cerulean", "Cerulean"), ("caribbean", "Caribbean"), ("mango", "Mango")]

/-- `color_to_premiere_label` from `writers/premiere.py`. -/
def color_to_premiere_label (color : String) : String :=
  if color = "" ∨ pyStripStr color = "" then "Caribbean"
  else if color ∈ VALID_LABELS then color
  else ((LEGACY_COLOR_MAP.lookup (pyLower color)).getD "Caribbean")

/-- The media-file info dicts built by `extract_media_files` (the fields the
writer reads). -/
structure MediaFile where
  name : String
  pathurl : String
  file_id : Option String := none
  masterclipid : Option String := none
deriving Repr, DecidableEq

/-- `find_media_file` from `writers/premiere.py`: exact name match, then
case-insensitive, then substring, else fall back to the track index clamped
to the last file.  `none` models the `IndexError` on an empty catalog. -/
def find_media_file (media_files : List MediaFile) (file_name : Option String)
    (track_idx : ℕ) : Option MediaFile :=
  let byName :=
    match file_name with
    | none => none
    | some fn =>
      if fn = "" then none
      else
        match media_files.find? (fun mf => mf.name = fn) with
        | some mf => some mf
        | none =>
          match media_files.find? (fun mf => pyLower mf.name = pyLower fn) with
          | some mf => some mf
          | none => media_files.find? (fun mf => listContainsSub mf.name.toList fn.toList)
  match byName with
  | some mf => some mf
  | none => media_files.get? (min track_idx (media_files.length - 1))

/-- The attribute names `Segment` actually declares. -/
def segmentFields : List String :=
  ["kind", "start_frames", "end_frames", "color", "transcript", "raw_rows"]

/-- The attribute read `seg.file_name` performed by `generate_premiere_xml`
(lines 373 and 468): the `Segment` dataclass declares no `file_name` field,
so in Python this read raises `AttributeError`; `Except.error` models the
raise. -/
def segment_file_name (_s : Segment) : Except String (Option String) :=
  if "file_name" ∈ segmentFields then Except.ok none
  else Except.error "AttributeError: Segment object has no attribute file_name"

/-- The per-clip media resolution of `generate_premiere_xml`:
`find_media_file(media_files, seg.file_name, track_idx)`. -/
def resolveSegmentMedia (media_files : List MediaFile) (s : Segment)
    (track_idx : ℕ) : Except String (Option MediaFile) :=
  match segment_file_name s with
  | Except.error e => Except.error e
  | Except.ok fn => Except.ok (find_media_file media_files fn track_idx)

/-- The timing fields written into one generated `clipitem`. -/
structure ClipTiming where
  timelineStart : ℤ
  timelineEnd : ℤ
  srcIn : ℤ
  srcOut : ℤ
  label2 : String
deriving Repr, DecidableEq

/-- The clip timing that `generate_premiere_xml` lines 386-393 write for
one block segment when the cursor stands at `pos` (code that runs only
after the media resolution of line 373 has succeeded). -/
def clipTimingOf (pos : ℤ) (sg : Segment) : ClipTiming :=
  { timelineStart := pos, timelineEnd := pos + sg.duration_frames,
    srcIn := sg.start_frames, srcOut := sg.start_frames + sg.duration_frames,
    label2 := color_to_premiere_label ((sg.color).getD "") }

/-- One iteration of the per-track segment walk of `generate_premiere_xml`:
a gap advances the cursor by its duration; for a block the cursor first
advances by `gap_frames`, then the loop body resolves the media file via
`find_media_file(media_files, seg.file_name, track_idx)` (line 373) — the
`seg.file_name` read raises `AttributeError`, so the timing writes of
lines 386-393 and the cursor advance past the clip happen only on the
(unreachable) success path. -/
def premiereTrackStep (media_files : List MediaFile) (track_idx : ℕ)
    (gap_frames : ℤ) (acc : List ClipTiming × ℤ × ℤ)
    (seg : Segment) : Except String (List ClipTiming × ℤ × ℤ) :=
  let (clips, pos, maxEnd) := acc
  if seg.is_gap then Except.ok (clips, pos + seg.duration_frames, maxEnd)
  else
    let pos1 := pos + gap_frames
    match resolveSegmentMedia media_files seg track_idx with
    | Except.error e => Except.error e
    | Except.ok _ =>
      let d := seg.duration_frames
      Except.ok (clips ++ [clipTimingOf pos1 seg], pos1 + d, max maxEnd (pos1 + d))

/-- The whole per-track walk (`timeline_position` starts at 0); the first
raise aborts the conversion. -/
def premiereTrack (media_files : List MediaFile) (track_idx : ℕ)
    (segments : List Segment) (gap_frames : ℤ) :
    Except String (List ClipTiming × ℤ × ℤ) :=
  segments.foldlM (premiereTrackStep media_files track_idx gap_frames) ([], 0, 0)

/-! ## `writers/davinci.py` -/

/-- `DAVINCI_COLORS` from `writers/davinci.py` (17 color names). -/
def DAVINCI_COLORS : List String :=
  ["orange", "yellow", "green", "cyan", "blue", "purple", "pink", "red",
   "maroon", "rose", "lavender", "sand", "sepia", "mint", "olive", "violet",
   "peach"]

/-- `PREMIERE_TO_DAVINCI` from `writers/davinci.py`. -/
def PREMIERE_TO_DAVINCI : List (String × String) :=
  [("Violet", "violet"), ("Rose", "rose"), ("Mango", "orange"),
   ("Yellow", "yellow"), ("Lavender", "lavender"), ("Caribbean", "cyan"),
   ("Tan", "sand"), ("Forest", "green"), ("Blue", "blue"),
   ("Purple", "purple"), ("Teal", "cyan"), ("Brown", "sepia"),
   ("Gray", "sand"), ("Iris", "violet"), ("Cerulean", "blue"),
   ("Magenta", "pink")]

/-- `COLOR_TO_DAVINCI` from `writers/davinci.py`. -/
def COLOR_TO_DAVINCI : List (String × String) :=
  [("violet", "violet"), ("rose", "rose"), ("pink", "pink"), ("cyan", "cyan"),
   ("blue", "blue"), ("mint", "mint"), ("green", "green"),
   ("yellow", "yellow"), ("orange", "orange"), ("red", "red"),
   ("purple", "purple"), ("brown", "sepia"), ("gray", "sand"),
   ("lavender", "lavender"), ("tan", "sand"), ("teal", "cyan"),
   ("magenta", "pink"), ("forest", "green"), ("iris", "violet"),
   ("cerulean", "blue"), ("caribbean", "cyan"), ("mango", "orange"),
   ("peach", "peach"), ("olive", "olive"), ("maroon", "maroon"),
   ("sand", "sand"), ("sepia", "sepia")]

/-- `color_to_davinci` from `writers/davinci.py`. -/
def color_to_davinci (color : String) : String :=
  if color = "" ∨ pyStripStr color = "" then "blue"
  else
    match PREMIERE_TO_DAVINCI.lookup color with
    | some v => v
    | none =>
      match COLOR_TO_DAVINCI.lookup (pyLower color) with
      | some v => v
      | none =>
        if pyLower color ∈ DAVINCI_COLORS then pyLower color
        else "blue"

/-- `_frames_to_rational` from `writers/davinci.py`. -/
def frames_to_rational (frames : ℤ) (fps : ℚ) : String :=
  if |fps - 23976/1000| < 1/100 then intRepr (frames * 1001) ++ "/24000s"
  else if |fps - 2997/100| < 1/100 then intRepr (frames * 1001) ++ "/30000s"
  else if |fps - 5994/100| < 1/100 then intRepr (frames * 1001) ++ "/60000s"
  else intRepr frames ++ "/" ++ intRepr (pyRound fps) ++ "s"

/-- One entry of the `timeline_positions` list of `generate_davinci_xml`. -/
structure SpinePos where
  start : ℤ
  duration : ℤ
  source_start : ℤ
  color : Option String
deriving Repr, DecidableEq

/-- One iteration of the `for seg in segments` cursor loop of
`generate_davinci_xml`: a gap advances the cursor by its duration; a block
first advances it by `gap_frames`, records its position, then advances by
its duration. -/
def davinciStep (gap_frames : ℤ) (acc : List SpinePos × ℤ) (seg : Segment) :
    List SpinePos × ℤ :=
  let (ps, pos) := acc
  if seg.is_gap then (ps, pos + seg.duration_frames)
  else
    let pos1 := pos + gap_frames
    (ps ++ [{ start := pos1, duration := seg.duration_frames, source_start := seg.start_frames, color := seg.color }], pos1 + seg.duration_frames)

/-- The whole cursor walk; `.2` is `total_duration` (the cursor's end). -/
def davinciTimeline (segments : List Segment) (gap_frames : ℤ) :
    List SpinePos × ℤ :=
  segments.foldl (davinciStep gap_frames) ([], 0)

/-- The `duration` attribute written on the output `sequence` element:
`_frames_to_rational(total_duration, fps)`. -/
def davinciSequenceDuration (segments : List Segment) (gap_frames : ℤ)
    (fps : ℚ) : String :=
  frames_to_rational (davinciTimeline segments gap_frames).2 fps

/-- `gap_frames = int(round(fps * gap_seconds))` as computed by both
writers. -/
def gapFrames (fps gap_seconds : ℚ) : ℤ :=
  pyRound (fps * gap_seconds)

/-! ## Predicates and derived values used to state the claims -/

/-- A block row the builder accepts without warning: color `c`, not a gap
marker, both timecodes present and parsing to frames with `in < out`. -/
def ValidBlockRow (fps : ℚ) (c : String) (r : CsvRow) : Prop :=
  r.color = c ∧ r.is_gap = false ∧ r.in_timecode ≠ "" ∧ r.out_timecode ≠ "" ∧
  c ≠ "" ∧
  ∃ i o : ℤ, timecode_to_frames r.in_timecode fps = some i ∧
    timecode_to_frames r.out_timecode fps = some o ∧ i < o

/-- The in-point frame of a row (default 0, used only where parsing is
known to succeed). -/
def inFramesD (fps : ℚ) (r : CsvRow) : ℤ :=
  (timecode_to_frames r.in_timecode fps).getD 0

/-- The out-point frame of a row (default 0, used only where parsing is
known to succeed). -/
def outFramesD (fps : ℚ) (r : CsvRow) : ℤ :=
  (timecode_to_frames r.out_timecode fps).getD 0

/-- The out-point frame of the last row of `run`, or `dflt` if empty. -/
def lastOutD (fps : ℚ) (dflt : ℤ) (run : List CsvRow) : ℤ :=
  match run.getLast? with
  | none => dflt
  | some r => outFramesD fps r

/-- The block segment produced from a maximal same-color run `r :: rest`:
it spans the first row's in-point frame to the last row's out-point frame
and records every contributing row. -/
def blockOfRun (fps : ℚ) (c : String) (r : CsvRow) (rest : List CsvRow) : Segment :=
  { kind := "block", start_frames := inFramesD fps r,
    end_frames := lastOutD fps (outFramesD fps r) rest,
    color := some c, transcript := some r.transcript, raw_rows := r :: rest }

/-- The gap segment produced from a valid GAP row. -/
def gapSegOf (r : CsvRow) (s e : ℤ) : Segment :=
  { kind := "gap", start_frames := s, end_frames := e, color := some r.color,
    transcript := some r.transcript, raw_rows := [r] }

/-- Prepend already-emitted segments and warnings onto a builder state
(used to relate a fold from a mid-run state to a fold from the initial
state). -/
def stateShift (σ0 : List Segment) (ω0 : List String) (st : BuildState) : BuildState :=
  { segments := σ0 ++ st.segments, warnings := ω0 ++ st.warnings,
    current_color := st.current_color, current_block := st.current_block }

/-- The fresh block opened for a row at a color change. -/
def openedBlock (c : String) (r : CsvRow) (i o : ℤ) : Segment :=
  { kind := "block", start_frames := i, end_frames := o, color := some c, transcript := some r.transcript, raw_rows := [r] }

/-- The state after a color change: open block flushed, fresh block open. -/
def openedState (st : BuildState) (c : String) (r : CsvRow) (i o : ℤ) : BuildState :=
  { segments := st.segments ++ flushBlock st.current_block, warnings := st.warnings, current_color := some c, current_block := some (openedBlock c r i o) }

/-- The invariant C1 actually guarantees for an emitted segment: gap
segments and one-row segments are strictly positive-length. -/
def SegInv (s : Segment) : Prop :=
  (s.kind = "gap" → s.start_frames < s.end_frames) ∧
  (s.raw_rows.length = 1 → s.start_frames < s.end_frames)

/-- What holds of the currently open block. -/
def BlockInv (b : Segment) : Prop :=
  b.kind = "block" ∧ b.raw_rows ≠ [] ∧
  (b.raw_rows.length = 1 → b.start_frames < b.end_frames)

/-- The builder-state invariant behind claim C1. -/
def StInv (st : BuildState) : Prop :=
  (∀ sg ∈ st.segments, SegInv sg) ∧
  (∀ b, st.current_block = some b → BlockInv b) ∧
  (st.current_block = none → st.current_color = none)

/-! ## Concrete fixtures for counterexamples and witnesses -/

/-- First row of the C1 counterexample: Violet, 10s → 20s. -/
def c1rowA : CsvRow :=
  { speaker := "A", in_timecode := "00:00:10:00", out_timecode := "00:00:20:00", transcript := "t1", color := "Violet" }

/-- Second row of the C1 counterexample: Violet again, but 0s → 5s, so the
extension overwrites the open block's end frame with an earlier value. -/
def c1rowB : CsvRow :=
  { speaker := "A", in_timecode := "00:00:00:00", out_timecode := "00:00:05:00", transcript := "t2", color := "Violet" }

/-- Scenario row 1 (§8): Violet 0s → 5s. -/
def rowV1 : CsvRow :=
  { speaker := "田丸", in_timecode := "00:00:00:00", out_timecode := "00:00:05:00", transcript := "a1", color := "Violet" }

/-- Scenario row 2 (§8): Violet 5s → 10s (same color, same speaker). -/
def rowV2 : CsvRow :=
  { speaker := "田丸", in_timecode := "00:00:05:00", out_timecode := "00:00:10:00", transcript := "a2", color := "Violet" }

/-- Scenario row 3 (§8): Rose 10s → 15s (same speaker as a Violet row). -/
def rowRose : CsvRow :=
  { speaker := "田丸", in_timecode := "00:00:10:00", out_timecode := "00:00:15:00", transcript := "a3", color := "Rose" }

/-- Scenario row 4 (§8): a GAP row, 15s → 16s. -/
def rowGap : CsvRow :=
  { speaker := "", in_timecode := "00:00:15:00", out_timecode := "00:00:16:00", transcript := "", color := "GAP_1" }

/-- The Violet block the builder produces from `rowV1, rowV2` at 30 fps. -/
def segV : Segment :=
  { kind := "block", start_frames := 0, end_frames := 300, color := some "Violet", transcript := some "a1", raw_rows := [rowV1, rowV2] }

/-- The Rose block the builder produces from `rowRose` at 30 fps. -/
def segR : Segment :=
  { kind := "block", start_frames := 300, end_frames := 450, color := some "Rose", transcript := some "a3", raw_rows := [rowRose] }

/-- The gap segment the builder produces from `rowGap` at 30 fps. -/
def segGap : Segment :=
  { kind := "gap", start_frames := 450, end_frames := 480, color := some "GAP_1", transcript := some "", raw_rows := [rowGap] }

/-- A two-file media catalog as extracted from a template. -/
def mfA : MediaFile :=
  { name := "Cam1.mov", pathurl := "file://localhost/Cam1.mov", file_id := some "file-1", masterclipid := some "masterclip-1" }

/-- Second media file of the demo catalog. -/
def mfB : MediaFile :=
  { name := "Cam2.mov", pathurl := "file://localhost/Cam2.mov", file_id := some "file-2", masterclipid := some "masterclip-2" }

/-- A block segment reaching the XMEML writer. -/
def demoBlock : Segment :=
  { kind := "block", start_frames := 0, end_frames := 150, color := some "Violet", transcript := some "a1", raw_rows := [rowV1] }

/-- A degenerate segment (end ≤ start) as the C1 counterexample produces. -/
def degBlock : Segment :=
  { kind := "block", start_frames := 300, end_frames := 150, color := some "Violet", transcript := some "t1", raw_rows := [c1rowA, c1rowB] }

/-! ## Lemmas on the Python numeric primitives -/

/-- `pyRound` with its local bindings expanded. -/
lemma pyRound_eq (q : ℚ) :
    pyRound q = if q - (⌊q⌋ : ℚ) < 1/2 then ⌊q⌋
      else if (1 : ℚ)/2 < q - (⌊q⌋ : ℚ) then ⌊q⌋ + 1
      else if ⌊q⌋ % 2 = 0 then ⌊q⌋ else ⌊q⌋ + 1 := rfl

lemma pyRound_intCast (n : ℤ) : pyRound (n : ℚ) = n := by
  rw [pyRound_eq]
  simp [Int.floor_intCast]

lemma pyRound_nonneg {q : ℚ} (h : 0 ≤ q) : 0 ≤ pyRound q := by
  have hf : (0 : ℤ) ≤ ⌊q⌋ := Int.le_floor.mpr (by exact_mod_cast h)
  rw [pyRound_eq]
  split_ifs <;> omega

lemma pyRound_eq_of_abs_lt {q : ℚ} {n : ℤ} (h : |q - (n : ℚ)| < 1/2) :
    pyRound q = n := by
  rw [abs_lt] at h
  obtain ⟨h1, h2⟩ := h
  rcases le_or_lt (n : ℚ) q with hle | hlt
  · have hf : ⌊q⌋ = n := by
      rw [Int.floor_eq_iff]
      constructor
      · exact_mod_cast hle
      · linarith
    rw [pyRound_eq, hf]
    rw [if_pos (by linarith)]
  · have hf : ⌊q⌋ = n - 1 := by
      rw [Int.floor_eq_iff]
      constructor
      · push_cast
        linarith
      · push_cast
        linarith
    rw [pyRound_eq, hf]
    rw [if_neg (by push_cast; linarith), if_pos (by push_cast; linarith)]
    omega

lemma pyRound_abs_le (q : ℚ) : |q - (pyRound q : ℚ)| ≤ 1/2 := by
  have h0 : (⌊q⌋ : ℚ) ≤ q := Int.floor_le q
  have h1 : q < (⌊q⌋ : ℚ) + 1 := Int.lt_floor_add_one q
  rw [pyRound_eq]
  split_ifs with hc1 hc2 hc3 <;> rw [abs_le] <;> push_cast <;>
    constructor <;> linarith

lemma pyRound_abs_lt (q : ℚ) (h : q - (⌊q⌋ : ℚ) ≠ 1/2) :
    |q - (pyRound q : ℚ)| < 1/2 := by
  have h0 : (⌊q⌋ : ℚ) ≤ q := Int.floor_le q
  have h1 : q < (⌊q⌋ : ℚ) + 1 := Int.lt_floor_add_one q
  rw [pyRound_eq]
  split_ifs with hc1 hc2 hc3 <;> rw [abs_lt] <;> push_cast <;>
    constructor <;> first
    | linarith
    | (rcases lt_or_gt_of_ne h with hx | hx <;> linarith)

lemma pyTrunc_eq_floor {q : ℚ} (h : 0 ≤ q) : pyTrunc q = ⌊q⌋ := by
  unfold pyTrunc
  rw [if_neg (by linarith)]

lemma pyMod_nonneg (q : ℚ) {d : ℚ} (hd : 0 < d) : 0 ≤ pyMod q d := by
  unfold pyMod
  have h1 := Int.floor_le (q / d)
  have h2 : d * (⌊q / d⌋ : ℚ) ≤ d * (q / d) :=
    mul_le_mul_of_nonneg_left h1 (le_of_lt hd)
  have h3 : d * (q / d) = q := by
    field_simp
  linarith

lemma pyMod_lt (q : ℚ) {d : ℚ} (hd : 0 < d) : pyMod q d < d := by
  unfold pyMod
  have h1 := Int.lt_floor_add_one (q / d)
  have h2 : d * (q / d) < d * ((⌊q / d⌋ : ℚ) + 1) :=
    mul_lt_mul_of_pos_left h1 hd
  have h3 : d * (q / d) = q := by
    field_simp
  nlinarith

/-- The `%`-chain identity behind the H:M:S decomposition:
`(q % 3600) % 60 = q % 60`. -/
lemma pyMod_pyMod (q : ℚ) : pyMod (pyMod q 3600) 60 = pyMod q 60 := by
  have hb : ⌊pyMod q 3600 / 60⌋ = ⌊q / 60⌋ - 60 * ⌊q / 3600⌋ := by
    have h : pyMod q 3600 / 60 = q / 60 + ((-(60 * ⌊q / 3600⌋) : ℤ) : ℚ) := by
      unfold pyMod
      push_cast
      ring
    rw [h, Int.floor_add_int]
    ring
  rw [show pyMod (pyMod q 3600) 60 = pyMod q 3600 - 60 * (⌊pyMod q 3600 / 60⌋ : ℚ) from rfl]
  rw [hb]
  unfold pyMod
  push_cast
  ring

lemma floor_pyMod_3600 (x : ℚ) : ⌊pyMod x 3600⌋ = ⌊x⌋ - 3600 * ⌊x / 3600⌋ := by
  have h : pyMod x 3600 = x + ((-(3600 * ⌊x / 3600⌋) : ℤ) : ℚ) := by
    unfold pyMod
    push_cast
    ring
  rw [h, Int.floor_add_int]
  ring

lemma floor_pyMod_60 (x : ℚ) : ⌊pyMod x 60⌋ = ⌊x⌋ - 60 * ⌊x / 60⌋ := by
  have h : pyMod x 60 = x + ((-(60 * ⌊x / 60⌋) : ℤ) : ℚ) := by
    unfold pyMod
    push_cast
    ring
  rw [h, Int.floor_add_int]
  ring

/-- `hours*3600 + minutes*60 + seconds = int(q)` for the components computed
by `frames_to_timecode`. -/
lemma hms_decomp (q : ℚ) :
    ⌊q / 3600⌋ * 3600 + ⌊pyMod q 3600 / 60⌋ * 60 + ⌊pyMod q 60⌋ = ⌊q⌋ := by
  have e1 := floor_pyMod_3600 q
  have e2 := floor_pyMod_60 (pyMod q 3600)
  rw [pyMod_pyMod] at e2
  omega

/-! ## Lemmas on the IEEE-754 double model -/

lemma two_zpow_pos (e : ℤ) : (0:ℚ) < 2 ^ e :=
  zpow_pos (by norm_num) e

lemma two_zpow_mul (a b : ℤ) : (2:ℚ) ^ a * 2 ^ b = 2 ^ (a + b) :=
  (zpow_add₀ (by norm_num : (2:ℚ) ≠ 0) a b).symm

lemma two_zpow_natCast (j : ℕ) : (2:ℚ) ^ (j : ℤ) = ((2 ^ j : ℤ) : ℚ) := by
  rw [zpow_natCast]
  push_cast
  ring

lemma int_log_two_le {q : ℚ} (h0 : q ≠ 0) {e : ℤ} (hub : |q| < 2 ^ (e + 1)) :
    Int.log 2 |q| ≤ e := by
  have hpos : (0:ℚ) < |q| := abs_pos.mpr h0
  have hub2 : |q| < ((2:ℕ):ℚ) ^ (e + 1) := by
    rw [show ((2:ℕ):ℚ) = (2:ℚ) from by norm_num]
    exact hub
  have hlt := (Int.lt_zpow_iff_log_lt (by norm_num) hpos).mp hub2
  omega

lemma int_log_two_ge {q : ℚ} {e : ℤ} (hlb : 2 ^ e ≤ |q|) :
    e ≤ Int.log 2 |q| := by
  have hpos : (0:ℚ) < |q| := lt_of_lt_of_le (two_zpow_pos e) hlb
  have hlb2 : ((2:ℕ):ℚ) ^ e ≤ |q| := by
    rw [show ((2:ℕ):ℚ) = (2:ℚ) from by norm_num]
    exact hlb
  exact (Int.zpow_le_iff_le_log (by norm_num) hpos).mp hlb2

lemma int_log_two_self_le {q : ℚ} (h0 : q ≠ 0) :
    (2:ℚ) ^ Int.log 2 |q| ≤ |q| := by
  have hpos : (0:ℚ) < |q| := abs_pos.mpr h0
  have h := Int.zpow_log_le_self (by norm_num : (1:ℕ) < 2) hpos
  rwa [show ((2:ℕ):ℚ) = (2:ℚ) from by norm_num] at h

lemma int_log_two_lt_self (q : ℚ) :
    |q| < (2:ℚ) ^ (Int.log 2 |q| + 1) := by
  have h := Int.lt_zpow_succ_log_self (by norm_num : (1:ℕ) < 2) |q|
  rwa [show ((2:ℕ):ℚ) = (2:ℚ) from by norm_num] at h

lemma roundD_zero : roundD 0 = 0 := by
  unfold roundD
  rw [if_pos rfl]

/-- Evaluation rule for `roundD` once the binade of `q` is known. -/
lemma roundD_eq_mul {q : ℚ} {e : ℤ} (h0 : 0 < q) (h1 : (2:ℚ) ^ e ≤ q)
    (h2 : q < (2:ℚ) ^ (e + 1)) :
    roundD q = ((pyRound (q * 2 ^ ((52:ℤ) - e)) : ℤ) : ℚ) * 2 ^ (e - 52) := by
  have hlog : Int.log 2 |q| = e := by
    have hge : e ≤ Int.log 2 |q| := int_log_two_ge (by rwa [abs_of_pos h0])
    have hle : Int.log 2 |q| ≤ e := int_log_two_le (ne_of_gt h0) (by rwa [abs_of_pos h0])
    omega
  unfold roundD
  rw [if_neg (ne_of_gt h0), hlog]

/-- A representable value is returned unchanged. -/
lemma roundD_eq_self {q : ℚ} (h : Repr53 q) : roundD q = q := by
  by_cases h0 : q = 0
  · rw [h0, roundD_zero]
  obtain ⟨m, e, hq, hm⟩ := h
  unfold roundD
  rw [if_neg h0]
  set L := Int.log 2 |q| with hLdef
  have habs : |q| = |(m:ℚ)| * 2 ^ e := by
    rw [hq, abs_mul, abs_of_pos (two_zpow_pos e)]
  have hm53 : |(m:ℚ)| < 2 ^ ((53:ℕ) : ℤ) := by
    rw [two_zpow_natCast]
    exact_mod_cast hm
  have hub : |q| < 2 ^ (e + 53) := by
    rw [habs]
    calc |(m:ℚ)| * 2 ^ e < 2 ^ ((53:ℕ):ℤ) * 2 ^ e :=
          mul_lt_mul_of_pos_right hm53 (two_zpow_pos e)
      _ = 2 ^ (e + 53) := by
          rw [two_zpow_mul]
          congr 1
          omega
  have hLle : L ≤ e + 52 := by
    have h := int_log_two_le h0 (show |q| < 2 ^ ((e + 52) + 1) from by
      rw [show (e + 52 + 1 : ℤ) = e + 53 from by ring]
      exact hub)
    exact h
  set j := e + 52 - L with hjdef
  have hj0 : 0 ≤ j := by omega
  have hx : q * 2 ^ ((52:ℤ) - L) = ((m * 2 ^ j.toNat : ℤ) : ℚ) := by
    rw [hq, mul_assoc, two_zpow_mul]
    rw [show e + (52 - L) = (j.toNat : ℤ) from by omega]
    rw [two_zpow_natCast]
    push_cast
    ring
  rw [hx, pyRound_intCast, ← hx]
  rw [mul_assoc, two_zpow_mul]
  rw [show ((52:ℤ) - L + (L - 52)) = 0 from by ring, zpow_zero, mul_one]

/-- Relative error of rounding to double: at most one part in `2 ^ 53`. -/
lemma roundD_abs_sub_le (q : ℚ) : |roundD q - q| ≤ |q| / 2 ^ 53 := by
  by_cases h0 : q = 0
  · rw [h0, roundD_zero]
    norm_num
  unfold roundD
  rw [if_neg h0]
  set L := Int.log 2 |q| with hLdef
  set x := q * 2 ^ ((52:ℤ) - L) with hxdef
  have hstep : ((pyRound x : ℤ) : ℚ) * 2 ^ (L - 52) - q =
      (((pyRound x : ℤ) : ℚ) - x) * 2 ^ (L - 52) := by
    rw [sub_mul, hxdef, mul_assoc, two_zpow_mul,
      show ((52:ℤ) - L + (L - 52)) = 0 from by ring, zpow_zero, mul_one]
  rw [hstep, abs_mul]
  have h1 : |((pyRound x : ℤ) : ℚ) - x| ≤ 1/2 := by
    rw [abs_sub_comm]
    exact pyRound_abs_le x
  have h2 : |(2:ℚ) ^ (L - 52)| = 2 ^ (L - 52) := abs_of_pos (two_zpow_pos _)
  rw [h2]
  have hL : (2:ℚ) ^ L ≤ |q| := int_log_two_self_le h0
  have h3 : (2:ℚ) ^ (L - 52) ≤ |q| / 2 ^ ((52:ℤ)) := by
    rw [zpow_sub₀ (by norm_num : (2:ℚ) ≠ 0)]
    exact (div_le_div_iff_of_pos_right (two_zpow_pos 52)).mpr hL
  calc |((pyRound x : ℤ):ℚ) - x| * 2 ^ (L - 52)
      ≤ (1/2) * (|q| / 2 ^ ((52:ℤ))) :=
        mul_le_mul h1 h3 (le_of_lt (two_zpow_pos _)) (by norm_num)
    _ = |q| / 2 ^ 53 := by
        rw [show ((2:ℚ) ^ ((52:ℤ))) = 4503599627370496 from by norm_num]
        rw [show ((2:ℚ) ^ (53:ℕ)) = 9007199254740992 from by norm_num]
        ring

/-- The result of rounding is itself representable. -/
lemma roundD_repr (q : ℚ) : Repr53 (roundD q) := by
  by_cases h0 : q = 0
  · rw [h0, roundD_zero]
    exact ⟨0, 0, by norm_num, by norm_num⟩
  unfold roundD
  rw [if_neg h0]
  set L := Int.log 2 |q| with hLdef
  set x := q * 2 ^ ((52:ℤ) - L) with hxdef
  have hxlt : |x| < 2 ^ ((53:ℕ):ℤ) := by
    rw [hxdef, abs_mul, abs_of_pos (two_zpow_pos ((52:ℤ) - L))]
    have hub : |q| < 2 ^ (L + 1) := int_log_two_lt_self q
    calc |q| * 2 ^ ((52:ℤ) - L) < 2 ^ (L + 1) * 2 ^ ((52:ℤ) - L) :=
          mul_lt_mul_of_pos_right hub (two_zpow_pos _)
      _ = 2 ^ ((53:ℕ):ℤ) := by
          rw [two_zpow_mul]
          congr 1
          omega
  have h1 : |x - (pyRound x : ℚ)| ≤ 1/2 := pyRound_abs_le x
  have h2 : |(pyRound x : ℚ)| ≤ |x| + 1/2 := by
    calc |(pyRound x : ℚ)| = |x - (x - (pyRound x : ℚ))| := by ring_nf
      _ ≤ |x| + |x - (pyRound x : ℚ)| := abs_sub _ _
      _ ≤ |x| + 1/2 := by linarith
  have h5 : |pyRound x| < 2 ^ 53 + 1 := by
    by_contra hcon
    push_neg at hcon
    have hc : ((2:ℚ) ^ (53:ℕ)) + 1 ≤ |((pyRound x : ℤ) : ℚ)| := by
      exact_mod_cast hcon
    have hxlt2 : |x| < (2:ℚ) ^ (53:ℕ) := by
      rw [two_zpow_natCast] at hxlt
      exact_mod_cast hxlt
    linarith
  have hr : |pyRound x| ≤ 2 ^ 53 := by omega
  rcases lt_or_eq_of_le hr with hlt | heq
  · exact ⟨pyRound x, L - 52, rfl, hlt⟩
  · rcases (abs_eq (by positivity : (0:ℤ) ≤ 2 ^ 53)).mp heq with hpe | hne
    · refine ⟨2 ^ 52, L - 51, ?_, by norm_num⟩
      rw [hpe]
      rw [show (L - 51 : ℤ) = (L - 52) + 1 from by ring, ← two_zpow_mul, zpow_one]
      push_cast
      ring
    · refine ⟨-(2 ^ 52), L - 51, ?_, by norm_num⟩
      rw [hne]
      rw [show (L - 51 : ℤ) = (L - 52) + 1 from by ring, ← two_zpow_mul, zpow_one]
      push_cast
      ring

lemma roundD_nonneg {q : ℚ} (h : 0 ≤ q) : 0 ≤ roundD q := by
  rcases eq_or_lt_of_le h with h0 | h0
  · rw [← h0, roundD_zero]
  unfold roundD
  rw [if_neg (ne_of_gt h0)]
  have h1 : (0:ℤ) ≤ pyRound (q * 2 ^ ((52:ℤ) - Int.log 2 |q|)) :=
    pyRound_nonneg (mul_nonneg (le_of_lt h0) (le_of_lt (two_zpow_pos _)))
  have h2 : (0:ℚ) ≤ ((pyRound (q * 2 ^ ((52:ℤ) - Int.log 2 |q|)) : ℤ) : ℚ) := by
    exact_mod_cast h1
  exact mul_nonneg h2 (le_of_lt (two_zpow_pos _))

lemma repr53_int {m : ℤ} (hm : |m| < 2 ^ 53) : Repr53 ((m : ℤ) : ℚ) :=
  ⟨m, 0, by rw [zpow_zero, mul_one], hm⟩

lemma roundD_intCast {m : ℤ} (hm : |m| < 2 ^ 53) :
    roundD ((m : ℤ) : ℚ) = ((m : ℤ) : ℚ) :=
  roundD_eq_self (repr53_int hm)

/-- Subtracting the integer part of a representable value (Sterbenz-style
exactness, specialised to `n ≤ x ≤ n + 1`). -/
lemma repr53_sub_int {x : ℚ} {n : ℤ} (hx : Repr53 x) (hn : 0 ≤ n)
    (h1 : (n : ℚ) ≤ x) (h2 : x ≤ (n : ℚ) + 1) : Repr53 (x - (n : ℚ)) := by
  obtain ⟨m, e, hq, hm⟩ := hx
  rcases le_or_lt 0 e with he | he
  · have hxint : x = ((m * 2 ^ e.toNat : ℤ) : ℚ) := by
      rw [hq]
      rw [show (2:ℚ) ^ e = ((2 ^ e.toNat : ℤ) : ℚ) from by
        rw [← two_zpow_natCast, Int.toNat_of_nonneg he]]
      push_cast
      ring
    have hv : ((m * 2 ^ e.toNat - n : ℤ) : ℚ) = x - (n:ℚ) := by
      rw [hxint]
      push_cast
      ring
    refine ⟨m * 2 ^ e.toNat - n, 0, by rw [zpow_zero, mul_one, hv], ?_⟩
    have hge : (0:ℚ) ≤ ((m * 2 ^ e.toNat - n : ℤ) : ℚ) := by
      rw [hv]
      linarith
    have hle : ((m * 2 ^ e.toNat - n : ℤ) : ℚ) ≤ 1 := by
      rw [hv]
      linarith
    have hge2 : 0 ≤ m * 2 ^ e.toNat - n := by exact_mod_cast hge
    have hle2 : m * 2 ^ e.toNat - n ≤ 1 := by exact_mod_cast hle
    have habs1 : |m * 2 ^ e.toNat - n| ≤ 1 := abs_le.mpr ⟨by omega, hle2⟩
    exact lt_of_le_of_lt habs1 (by norm_num)
  · by_cases hn0 : n = 0
    · rw [hn0]
      push_cast
      rw [sub_zero]
      exact ⟨m, e, hq, hm⟩
    have hn1 : 1 ≤ n := by omega
    set E := (-e).toNat with hEdef
    have h2E : (2:ℚ) ^ (E:ℤ) * 2 ^ e = 1 := by
      rw [two_zpow_mul, show (E:ℤ) + e = 0 from by omega, zpow_zero]
    have hone : (2:ℚ) ^ (E:ℕ) * 2 ^ e = 1 := by
      rw [← zpow_natCast (2:ℚ) E]
      exact h2E
    refine ⟨m - n * 2 ^ E, e, ?_, ?_⟩
    · rw [hq]
      push_cast
      linear_combination (n:ℚ) * hone
    · have hm1 : (n:ℚ) * 2 ^ (E:ℤ) ≤ (m:ℚ) := by
        have h := mul_le_mul_of_nonneg_right h1 (le_of_lt (two_zpow_pos (E:ℤ)))
        rw [hq, mul_assoc, mul_comm ((2:ℚ) ^ e), h2E, mul_one] at h
        exact h
      have hm2 : (m:ℚ) ≤ ((n:ℚ) + 1) * 2 ^ (E:ℤ) := by
        have h := mul_le_mul_of_nonneg_right h2 (le_of_lt (two_zpow_pos (E:ℤ)))
        rw [hq, mul_assoc, mul_comm ((2:ℚ) ^ e), h2E, mul_one] at h
        exact h
      have hz1 : n * 2 ^ E ≤ m := by
        have h := hm1
        rw [two_zpow_natCast] at h
        exact_mod_cast h
      have hz2 : m ≤ (n + 1) * 2 ^ E := by
        have h := hm2
        rw [two_zpow_natCast] at h
        exact_mod_cast h
      have hz3 : (2:ℤ) ^ E ≤ n * 2 ^ E :=
        le_mul_of_one_le_left (by positivity) hn1
      have hnn : 0 ≤ m - n * 2 ^ E := by linarith
      rw [abs_of_nonneg hnn]
      have hmabs : m ≤ |m| := le_abs_self m
      have hfin : m - n * 2 ^ E ≤ 2 ^ E := by linarith
      linarith

lemma pyMod_eval {x d : ℚ} {q : ℤ} (hq : ⌊x / d⌋ = q) :
    pyMod x d = x - d * (q:ℚ) := by
  unfold pyMod
  rw [hq]

/-- CPython float floor division returns the exact floor whenever the
intermediate `d * q` is a small integer (every use in this development). -/
lemma pyFloorDivF_eval {x d : ℚ} {q : ℤ} (hd : 0 < d) (hq : ⌊x / d⌋ = q)
    (hJ : Repr53 (d * (q : ℚ))) (hq53 : |q| < 2 ^ 53) :
    pyFloorDivF x d = (q : ℚ) := by
  have hsub : fsub x (pyMod x d) = d * (q:ℚ) := by
    unfold fsub pyMod
    rw [hq, show x - (x - d * (q:ℚ)) = d * (q:ℚ) from by ring]
    exact roundD_eq_self hJ
  have hdiv : fdiv (d * (q:ℚ)) d = (q:ℚ) := by
    unfold fdiv
    rw [mul_div_cancel_left₀ _ (ne_of_gt hd)]
    exact roundD_eq_self (repr53_int hq53)
  unfold pyFloorDivF
  dsimp only
  rw [hsub, hdiv, Int.floor_intCast]
  rw [if_neg (by norm_num)]

/-! ## Lemmas on decimal formatting and Python `int` parsing -/

lemma natToDigitsLEAux_fuel {f1 f2 n : ℕ} (h1 : n ≤ f1) (h2 : n ≤ f2) :
    natToDigitsLEAux f1 n = natToDigitsLEAux f2 n := by
  induction f1 generalizing f2 n with
  | zero =>
    have hn : n = 0 := by omega
    subst hn
    cases f2 with
    | zero => rfl
    | succ g => simp [natToDigitsLEAux]
  | succ f ih =>
    cases f2 with
    | zero =>
      have hn : n = 0 := by omega
      subst hn
      simp [natToDigitsLEAux]
    | succ g =>
      by_cases hn : n < 10
      · simp [natToDigitsLEAux, hn]
      · have hd : n / 10 < n := Nat.div_lt_self (by omega) (by omega)
        simp only [natToDigitsLEAux, if_neg hn]
        congr 1
        exact ih (show n / 10 ≤ f by omega) (show n / 10 ≤ g by omega)

lemma natToDigitsLE_unfold (n : ℕ) :
    natToDigitsLE n = if n < 10 then [n] else n % 10 :: natToDigitsLE (n / 10) := by
  unfold natToDigitsLE
  cases n with
  | zero => simp [natToDigitsLEAux]
  | succ k =>
    by_cases hn : k + 1 < 10
    · simp [natToDigitsLEAux, hn]
    · have hd : (k + 1) / 10 < k + 1 := Nat.div_lt_self (by omega) (by omega)
      simp only [natToDigitsLEAux, if_neg hn]
      rw [natToDigitsLEAux_fuel (show (k+1)/10 ≤ k by omega) (le_refl _)]

lemma digitChar_toNat {d : ℕ} (h : d < 10) : (digitChar d).toNat = 48 + d := by
  interval_cases d <;> decide

lemma isPyDigit_digitChar {d : ℕ} (h : d < 10) : isPyDigit (digitChar d) = true := by
  interval_cases d <;> decide

lemma natToDigitsLE_lt (n : ℕ) : ∀ d ∈ natToDigitsLE n, d < 10 := by
  induction n using Nat.strong_induction_on with
  | _ n ih =>
    rw [natToDigitsLE_unfold]
    split
    · intro d hd
      simp only [List.mem_singleton] at hd
      omega
    · intro d hd
      simp only [List.mem_cons] at hd
      rcases hd with h | h
      · omega
      · exact ih (n / 10) (Nat.div_lt_self (by omega) (by omega)) d h

lemma decDigits_of_lt {n : ℕ} (h : n < 10) : decDigits n = [digitChar n] := by
  rw [decDigits, natToDigitsLE_unfold, if_pos h]
  simp

lemma decDigits_of_ge {n : ℕ} (h : ¬ n < 10) :
    decDigits n = decDigits (n / 10) ++ [digitChar (n % 10)] := by
  rw [decDigits, decDigits, natToDigitsLE_unfold, if_neg h]
  simp

lemma decDigits_ne_nil (n : ℕ) : decDigits n ≠ [] := by
  by_cases h : n < 10
  · rw [decDigits_of_lt h]
    simp
  · rw [decDigits_of_ge h]
    simp

lemma decDigits_all_digit (n : ℕ) : ∀ c ∈ decDigits n, isPyDigit c = true := by
  intro c hc
  rw [decDigits] at hc
  simp only [List.mem_map, List.mem_reverse] at hc
  obtain ⟨d, hd, rfl⟩ := hc
  exact isPyDigit_digitChar (natToDigitsLE_lt n d hd)

lemma digitsToNat_append (l : List Char) (c : Char) :
    digitsToNat (l ++ [c]) = 10 * digitsToNat l + (c.toNat - 48) := by
  simp [digitsToNat, List.foldl_append]

lemma digitsToNat_cons_zero (l : List Char) :
    digitsToNat ('0' :: l) = digitsToNat l := by
  have h : ∀ (cs : List Char) (a : ℕ),
      cs.foldl (fun a c => 10 * a + (c.toNat - 48)) a =
      cs.foldl (fun a c => 10 * a + (c.toNat - 48)) a := fun _ _ => rfl
  simp [digitsToNat, List.foldl_cons]

lemma digitsToNat_decDigits (n : ℕ) : digitsToNat (decDigits n) = n := by
  induction n using Nat.strong_induction_on with
  | _ n ih =>
    by_cases h : n < 10
    · rw [decDigits_of_lt h]
      have := digitChar_toNat h
      simp [digitsToNat]
      omega
    · rw [decDigits_of_ge h, digitsToNat_append,
        ih (n / 10) (Nat.div_lt_self (by omega) (by omega))]
      have := digitChar_toNat (Nat.mod_lt n (show 0 < 10 by omega))
      omega

lemma pad2Nat_all_digit (n : ℕ) : ∀ c ∈ pad2Nat n, isPyDigit c = true := by
  intro c hc
  unfold pad2Nat at hc
  split at hc
  · simp only [List.mem_cons] at hc
    rcases hc with rfl | hc
    · decide
    · exact decDigits_all_digit n c hc
  · exact decDigits_all_digit n c hc

lemma pad2Nat_ne_nil (n : ℕ) : pad2Nat n ≠ [] := by
  unfold pad2Nat
  split
  · simp
  · exact decDigits_ne_nil n

lemma digitsToNat_pad2Nat (n : ℕ) : digitsToNat (pad2Nat n) = n := by
  unfold pad2Nat
  split
  · rw [digitsToNat_cons_zero, digitsToNat_decDigits]
  · rw [digitsToNat_decDigits]

lemma isPyDigit_not_space {c : Char} (h : isPyDigit c = true) :
    isPySpace c = false := by
  simp only [isPyDigit, Bool.and_eq_true, decide_eq_true_eq] at h
  simp only [isPySpace, Bool.or_eq_false_iff, decide_eq_false_iff_not]
  omega

lemma isPyDigit_ne_colon {c : Char} (h : isPyDigit c = true) : c ≠ ':' := by
  intro he
  subst he
  simp [isPyDigit] at h

lemma isPyDigit_ne_semicolon {c : Char} (h : isPyDigit c = true) : c ≠ ';' := by
  intro he
  subst he
  simp [isPyDigit] at h

lemma isPyDigit_ne_plus {c : Char} (h : isPyDigit c = true) : c ≠ '+' := by
  intro he
  subst he
  simp [isPyDigit] at h

lemma isPyDigit_ne_minus {c : Char} (h : isPyDigit c = true) : c ≠ '-' := by
  intro he
  subst he
  simp [isPyDigit] at h

lemma dropWhile_eq_self {p : Char → Bool} {l : List Char}
    (h : ∀ c ∈ l, p c = false) : l.dropWhile p = l := by
  cases l with
  | nil => rfl
  | cons a l =>
    rw [List.dropWhile_cons, h a (by simp)]
    simp

lemma pyStrip_of_no_space {l : List Char}
    (h : ∀ c ∈ l, isPySpace c = false) : pyStrip l = l := by
  unfold pyStrip
  rw [dropWhile_eq_self h,
    dropWhile_eq_self (fun c hc => h c (List.mem_reverse.mp hc)),
    List.reverse_reverse]

lemma pyIntChars_of_digits {l : List Char} (h1 : l ≠ [])
    (h2 : ∀ c ∈ l, isPyDigit c = true) :
    pyIntChars l = some (digitsToNat l : ℤ) := by
  have hs : pyStrip l = l := pyStrip_of_no_space (fun c hc => isPyDigit_not_space (h2 c hc))
  unfold pyIntChars
  rw [hs]
  cases l with
  | nil => exact absurd rfl h1
  | cons c rest =>
    have hc : isPyDigit c = true := h2 c (by simp)
    dsimp only
    rw [if_neg (isPyDigit_ne_plus hc), if_neg (isPyDigit_ne_minus hc),
      if_pos (by rw [List.all_eq_true]; exact h2)]

lemma pyIntChars_pad2Nat (n : ℕ) : pyIntChars (pad2Nat n) = some (n : ℤ) := by
  rw [pyIntChars_of_digits (pad2Nat_ne_nil n) (pad2Nat_all_digit n),
    digitsToNat_pad2Nat]

/-! ## Lemmas on `split` / `replace` -/

lemma splitOnColon_no_colon {l : List Char} (h : ∀ c ∈ l, c ≠ ':') :
    splitOnColon l = [l] := by
  induction l with
  | nil => rfl
  | cons c rest ih =>
    rw [splitOnColon]
    rw [if_neg (h c (by simp))]
    rw [ih (fun x hx => h x (by simp [hx]))]

lemma splitOnColon_append {l : List Char} (r : List Char)
    (h : ∀ c ∈ l, c ≠ ':') :
    splitOnColon (l ++ ':' :: r) = l :: splitOnColon r := by
  induction l with
  | nil =>
    rw [List.nil_append, splitOnColon, if_pos rfl]
  | cons c rest ih =>
    rw [List.cons_append, splitOnColon, if_neg (h c (by simp)),
      ih (fun x hx => h x (by simp [hx]))]

lemma replaceSemicolons_id {l : List Char} (h : ∀ c ∈ l, c ≠ ';') :
    replaceSemicolons l = l := by
  induction l with
  | nil => rfl
  | cons c rest ih =>
    rw [replaceSemicolons, List.map_cons, if_neg (h c (by simp))]
    have := ih (fun x hx => h x (by simp [hx]))
    rw [replaceSemicolons] at this
    rw [this]

/-! ## Parsing canonical timecode strings -/

/-- Characters of a padded numeral joined with colons are digits or `:`. -/
lemma mem_pad_colon {c : Char} {l : List Char}
    (hl : ∀ x ∈ l, isPyDigit x = true ∨ x = ':') {n : ℕ}
    (hc : c ∈ pad2Nat n ++ ':' :: l) : isPyDigit c = true ∨ c = ':' := by
  simp only [List.mem_append, List.mem_cons] at hc
  rcases hc with hx | hx | hx
  · exact Or.inl (pad2Nat_all_digit n c hx)
  · exact Or.inr hx
  · exact hl c hx

lemma mem_pad_only {c : Char} {n : ℕ} (hc : c ∈ pad2Nat n) :
    isPyDigit c = true ∨ c = ':' :=
  Or.inl (pad2Nat_all_digit n c hc)

lemma digit_or_colon_not_space {c : Char}
    (h : isPyDigit c = true ∨ c = ':') : isPySpace c = false := by
  rcases h with h | rfl
  · exact isPyDigit_not_space h
  · decide

lemma digit_or_colon_ne_semicolon {c : Char}
    (h : isPyDigit c = true ∨ c = ':') : c ≠ ';' := by
  rcases h with h | rfl
  · exact isPyDigit_ne_semicolon h
  · decide

lemma pad2Nat_ne_colon {n : ℕ} : ∀ c ∈ pad2Nat n, c ≠ ':' :=
  fun c hc => isPyDigit_ne_colon (pad2Nat_all_digit n c hc)

lemma tcChars_reduce {l : List Char}
    (hmem : ∀ c ∈ l, isPyDigit c = true ∨ c = ':') (hne : l ≠ []) (fps : ℚ) :
    timecode_to_frames (String.mk l) fps =
      (match splitOnColon l with
       | [h, m, s, f] => do
         let hours ← pyIntChars h
         let minutes ← pyIntChars m
         let seconds ← pyIntChars s
         let frames ← pyIntChars f
         some (tcFrames hours minutes seconds frames fps)
       | [m, s, f] => do
         let minutes ← pyIntChars m
         let seconds ← pyIntChars s
         let frames ← pyIntChars f
         some (tcFrames 0 minutes seconds frames fps)
       | [s, f] => do
         let seconds ← pyIntChars s
         let frames ← pyIntChars f
         some (tcFrames 0 0 seconds frames fps)
       | _ => some 0) := by
  have htl : (String.mk l).toList = l := rfl
  have hstrip : pyStrip l = l :=
    pyStrip_of_no_space (fun c hc => digit_or_colon_not_space (hmem c hc))
  have hrepl : replaceSemicolons l = l :=
    replaceSemicolons_id (fun c hc => digit_or_colon_ne_semicolon (hmem c hc))
  unfold timecode_to_frames
  rw [htl, if_neg (by rw [hstrip]; simp [hne]), hrepl]

lemma timecode_to_frames_mkTc4 (h m s f : ℕ) (fps : ℚ) :
    timecode_to_frames (mkTc4 h m s f) fps = some (tcFrames h m s f fps) := by
  unfold mkTc4
  rw [tcChars_reduce
    (fun c hc => mem_pad_colon (fun x hx => mem_pad_colon (fun y hy =>
      mem_pad_colon (fun z hz => mem_pad_only hz) hy) hx) hc)
    (by simp)]
  rw [splitOnColon_append _ pad2Nat_ne_colon,
    splitOnColon_append _ pad2Nat_ne_colon,
    splitOnColon_append _ pad2Nat_ne_colon,
    splitOnColon_no_colon pad2Nat_ne_colon]
  simp [pyIntChars_pad2Nat]

lemma timecode_to_frames_mkTc3 (m s f : ℕ) (fps : ℚ) :
    timecode_to_frames (mkTc3 m s f) fps = some (tcFrames 0 m s f fps) := by
  unfold mkTc3
  rw [tcChars_reduce
    (fun c hc => mem_pad_colon (fun x hx => mem_pad_colon (fun y hy =>
      mem_pad_only hy) hx) hc)
    (by simp)]
  rw [splitOnColon_append _ pad2Nat_ne_colon,
    splitOnColon_append _ pad2Nat_ne_colon,
    splitOnColon_no_colon pad2Nat_ne_colon]
  simp [pyIntChars_pad2Nat]

lemma timecode_to_frames_mkTc2 (s f : ℕ) (fps : ℚ) :
    timecode_to_frames (mkTc2 s f) fps = some (tcFrames 0 0 s f fps) := by
  unfold mkTc2
  rw [tcChars_reduce
    (fun c hc => mem_pad_colon (fun x hx => mem_pad_only hx) hc)
    (by simp)]
  rw [splitOnColon_append _ pad2Nat_ne_colon,
    splitOnColon_no_colon pad2Nat_ne_colon]
  simp [pyIntChars_pad2Nat]

lemma timecode_to_frames_mkTc5 (a b c d e : ℕ) (fps : ℚ) :
    timecode_to_frames (mkTc5 a b c d e) fps = some 0 := by
  unfold mkTc5
  rw [tcChars_reduce
    (fun x hx => mem_pad_colon (fun x1 hx1 => mem_pad_colon (fun x2 hx2 =>
      mem_pad_colon (fun x3 hx3 => mem_pad_colon (fun x4 hx4 =>
        mem_pad_only hx4) hx3) hx2) hx1) hx)
    (by simp)]
  rw [splitOnColon_append _ pad2Nat_ne_colon,
    splitOnColon_append _ pad2Nat_ne_colon,
    splitOnColon_append _ pad2Nat_ne_colon,
    splitOnColon_append _ pad2Nat_ne_colon,
    splitOnColon_no_colon pad2Nat_ne_colon]

lemma timecode_to_frames_single (n : ℕ) (fps : ℚ) :
    timecode_to_frames (String.mk (pad2Nat n)) fps = some 0 := by
  rw [tcChars_reduce (fun c hc => mem_pad_only hc) (pad2Nat_ne_nil n)]
  rw [splitOnColon_no_colon pad2Nat_ne_colon]

/-! ## Round trip: `frames_to_timecode` then `timecode_to_frames` -/

lemma pad2Int_of_nonneg {n : ℤ} (h : 0 ≤ n) : pad2Int n = pad2Nat n.toNat := by
  unfold pad2Int
  rw [if_neg (not_lt.mpr h)]

/-! ## Small evaluation helpers for concrete rationals -/

lemma floor_of_bounds (z : ℤ) {q : ℚ} (h1 : (z : ℚ) ≤ q) (h2 : q < (z : ℚ) + 1) :
    ⌊q⌋ = z := by
  rw [Int.floor_eq_iff]
  exact ⟨h1, by linarith⟩

lemma pyRound_half : pyRound (1/2 : ℚ) = 0 := by
  rw [pyRound_eq, floor_of_bounds 0 (by norm_num) (by norm_num)]
  norm_num

lemma pyRound_eleven_halves : pyRound (11/2 : ℚ) = 6 := by
  rw [pyRound_eq, floor_of_bounds 5 (by norm_num) (by norm_num)]
  norm_num

/-! ## `frames_to_timecode` at an integer rate -/

lemma int_abs_lt_two_pow_53 {z : ℤ} (h1 : 0 ≤ z) (h2 : z ≤ 4000000000) :
    |z| < 2 ^ 53 := by
  rw [abs_of_nonneg h1]
  calc z ≤ 4000000000 := h2
    _ < 2 ^ 53 := by norm_num

/-- At an integer rate `1 ≤ fps ≤ 1000`, for a source-second count
`S ≤ 359999` and a frame remainder `f < fps`, the double-precision pipeline
of `frames_to_timecode` recovers the exact `H:M:S:F` decomposition: every
intermediate is either exactly representable or carries a rounding error far
below half a frame. -/
lemma frames_to_timecode_int_fps {S f fps : ℕ} (hfps1 : 1 ≤ fps)
    (hfps2 : fps ≤ 1000) (hS : S ≤ 359999) (hf : f < fps) :
    frames_to_timecode ((S * fps + f : ℕ) : ℤ) (fps : ℚ) =
      some (mkTc4 (S / 3600) (S % 3600 / 60) (S % 60) f) := by
  have hfq : (0:ℚ) < (fps:ℚ) := by exact_mod_cast hfps1
  have hfne : (fps:ℚ) ≠ 0 := ne_of_gt hfq
  have hf1000 : (fps:ℚ) ≤ 1000 := by exact_mod_cast hfps2
  set q1 : ℕ := S / 3600 with hq1def
  set r1 : ℕ := S % 3600 with hr1def
  set q2 : ℕ := r1 / 60 with hq2def
  set q3 : ℕ := S / 60 with hq3def
  set r3 : ℕ := S % 60 with hr3def
  set N : ℕ := S * fps + f with hNdef
  have hNle : N ≤ 359999999 := by
    have h1 : S * fps ≤ 359999 * 1000 := Nat.mul_le_mul hS hfps2
    omega
  unfold frames_to_timecode
  rw [if_neg hfne]
  dsimp only
  have hNcast : roundD (((N : ℕ) : ℤ) : ℚ) = (((N : ℕ) : ℤ) : ℚ) :=
    roundD_intCast (int_abs_lt_two_pow_53 (by positivity)
      (by exact_mod_cast le_trans hNle (by norm_num)))
  rw [hNcast]
  rw [show fdiv (((N : ℕ) : ℤ) : ℚ) (fps:ℚ) =
      roundD ((((N : ℕ) : ℤ) : ℚ) / (fps:ℚ)) from rfl]
  set T : ℚ := (((N : ℕ) : ℤ) : ℚ) / (fps:ℚ) with hTdef
  set ts : ℚ := roundD T with htsdef
  have hTS : T = (S:ℚ) + (f:ℚ) / (fps:ℚ) := by
    rw [hTdef, hNdef]
    push_cast
    field_simp
  have hT0 : 0 ≤ T := by
    rw [hTdef]
    positivity
  have hfdiv0 : (0:ℚ) ≤ (f:ℚ) / (fps:ℚ) := by positivity
  have hfdiv1 : (f:ℚ) / (fps:ℚ) < 1 := by
    rw [div_lt_one hfq]
    exact_mod_cast hf
  have hSq : (S:ℚ) ≤ 359999 := by exact_mod_cast hS
  have hTub : T ≤ 360000 := by
    rw [hTS]
    linarith
  have herr : |ts - T| ≤ 360000 / 2 ^ 53 := by
    calc |ts - T| ≤ |T| / 2 ^ 53 := roundD_abs_sub_le T
      _ ≤ 360000 / 2 ^ 53 := by
          rw [div_eq_mul_inv, div_eq_mul_inv]
          exact mul_le_mul_of_nonneg_right (by rw [abs_of_nonneg hT0]; exact hTub)
            (by positivity)
  have herr2 := abs_le.mp herr
  have htsS : ts = (S:ℚ) ∨ ((S:ℚ) < ts ∧ ts < (S:ℚ) + 1) := by
    by_cases hfz : f = 0
    · left
      have hTeq : T = (((S:ℕ):ℤ):ℚ) := by
        rw [hTS, hfz]
        push_cast
        norm_num
      rw [htsdef, hTeq, roundD_intCast (int_abs_lt_two_pow_53 (by positivity)
        (by exact_mod_cast le_trans hS (by norm_num)))]
      push_cast
      ring
    · right
      have hff1 : 1 ≤ f := by omega
      have hfl : (1:ℚ)/1000 ≤ (f:ℚ)/(fps:ℚ) := by
        rw [div_le_div_iff₀ (by norm_num) hfq]
        have hc1 : (1:ℚ) ≤ (f:ℚ) := by exact_mod_cast hff1
        nlinarith
      have hfu : (f:ℚ)/(fps:ℚ) ≤ 1 - 1/1000 := by
        have hfle : (f:ℚ) + 1 ≤ (fps:ℚ) := by exact_mod_cast hf
        have hstep : (f:ℚ)/(fps:ℚ) ≤ ((fps:ℚ) - 1)/(fps:ℚ) := by
          rw [div_eq_mul_inv, div_eq_mul_inv]
          exact mul_le_mul_of_nonneg_right (by linarith) (by positivity)
        have hone : ((fps:ℚ) - 1)/(fps:ℚ) = 1 - 1/(fps:ℚ) := by
          field_simp
        have hinv : (1:ℚ)/1000 ≤ 1/(fps:ℚ) := by
          rw [div_le_div_iff₀ (by norm_num) hfq]
          linarith
        rw [hone] at hstep
        linarith
      have hnum : (360000:ℚ)/2^53 < 1/1000 := by norm_num
      constructor
      · have hTgt : (S:ℚ) + 1/1000 ≤ T := by
          rw [hTS]
          linarith
        linarith [herr2.1]
      · have hTlt : T ≤ (S:ℚ) + 1 - 1/1000 := by
          rw [hTS]
          linarith
        linarith [herr2.2]
  have hts_lb : (S:ℚ) ≤ ts := by
    rcases htsS with hcase | hcase
    · exact le_of_eq hcase.symm
    · exact le_of_lt hcase.1
  have hts_ub : ts < (S:ℚ) + 1 := by
    rcases htsS with hcase | hcase
    · rw [hcase]
      norm_num
    · exact hcase.2
  have hts0 : 0 ≤ ts := le_trans (by positivity) hts_lb
  have hfloorts : ⌊ts⌋ = ((S:ℕ):ℤ) :=
    floor_of_bounds _ (by exact_mod_cast hts_lb) (by push_cast; exact hts_ub)
  have htr : pyTrunc ts = ((S:ℕ):ℤ) := by
    rw [pyTrunc_eq_floor hts0, hfloorts]
  -- hours
  have hq1 : ⌊ts / (3600:ℚ)⌋ = ((q1 : ℕ) : ℤ) := by
    apply floor_of_bounds
    · rw [le_div_iff₀ (by norm_num : (0:ℚ) < 3600)]
      have hc : ((q1:ℕ):ℚ) * 3600 ≤ (S:ℚ) := by
        exact_mod_cast (by omega : q1 * 3600 ≤ S)
      push_cast
      push_cast at hc
      linarith
    · rw [div_lt_iff₀ (by norm_num : (0:ℚ) < 3600)]
      have hc : (S:ℚ) + 1 ≤ (((q1:ℕ):ℚ) + 1) * 3600 := by
        exact_mod_cast (by omega : S + 1 ≤ (q1 + 1) * 3600)
      push_cast
      push_cast at hc
      linarith
  have hJ1 : Repr53 ((3600:ℚ) * (((q1:ℕ) : ℤ) : ℚ)) := by
    rw [show (3600:ℚ) * (((q1:ℕ) : ℤ) : ℚ) =
        ((3600 * (q1:ℕ) : ℤ) : ℚ) from by push_cast; ring]
    exact repr53_int (int_abs_lt_two_pow_53 (by positivity)
      (by exact_mod_cast (by omega : 3600 * q1 ≤ 4000000000)))
  have hq531 : |((q1:ℕ) : ℤ)| < 2 ^ 53 :=
    int_abs_lt_two_pow_53 (by positivity)
      (by exact_mod_cast (by omega : q1 ≤ 4000000000))
  have hhours : pyTrunc (pyFloorDivF ts 3600) = ((q1:ℕ) : ℤ) := by
    rw [pyFloorDivF_eval (by norm_num) hq1 hJ1 hq531,
      pyTrunc_eq_floor (by positivity), Int.floor_intCast]
  -- minutes
  have hmod3600 : pyMod ts 3600 = ts - 3600 * (((q1:ℕ) : ℤ) : ℚ) :=
    pyMod_eval hq1
  have hq2 : ⌊pyMod ts 3600 / (60:ℚ)⌋ = ((q2:ℕ) : ℤ) := by
    rw [hmod3600]
    apply floor_of_bounds
    · rw [le_div_iff₀ (by norm_num : (0:ℚ) < 60)]
      have hc : ((q2:ℕ):ℚ) * 60 + ((q1:ℕ):ℚ) * 3600 ≤ (S:ℚ) := by
        exact_mod_cast (by omega : q2 * 60 + q1 * 3600 ≤ S)
      push_cast
      push_cast at hc
      linarith
    · rw [div_lt_iff₀ (by norm_num : (0:ℚ) < 60)]
      have hc : (S:ℚ) + 1 ≤ (((q2:ℕ):ℚ) + 1) * 60 + ((q1:ℕ):ℚ) * 3600 := by
        exact_mod_cast (by omega : S + 1 ≤ (q2 + 1) * 60 + q1 * 3600)
      push_cast
      push_cast at hc
      linarith
  have hJ2 : Repr53 ((60:ℚ) * (((q2:ℕ) : ℤ) : ℚ)) := by
    rw [show (60:ℚ) * (((q2:ℕ) : ℤ) : ℚ) =
        ((60 * (q2:ℕ) : ℤ) : ℚ) from by push_cast; ring]
    exact repr53_int (int_abs_lt_two_pow_53 (by positivity)
      (by exact_mod_cast (by omega : 60 * q2 ≤ 4000000000)))
  have hq532 : |((q2:ℕ) : ℤ)| < 2 ^ 53 :=
    int_abs_lt_two_pow_53 (by positivity)
      (by exact_mod_cast (by omega : q2 ≤ 4000000000))
  have hminutes : pyTrunc (pyFloorDivF (pyMod ts 3600) 60) = ((q2:ℕ) : ℤ) := by
    rw [pyFloorDivF_eval (by norm_num) hq2 hJ2 hq532,
      pyTrunc_eq_floor (by positivity), Int.floor_intCast]
  -- seconds
  have hq3 : ⌊ts / (60:ℚ)⌋ = ((q3:ℕ) : ℤ) := by
    apply floor_of_bounds
    · rw [le_div_iff₀ (by norm_num : (0:ℚ) < 60)]
      have hc : ((q3:ℕ):ℚ) * 60 ≤ (S:ℚ) := by
        exact_mod_cast (by omega : q3 * 60 ≤ S)
      push_cast
      push_cast at hc
      linarith
    · rw [div_lt_iff₀ (by norm_num : (0:ℚ) < 60)]
      have hc : (S:ℚ) + 1 ≤ (((q3:ℕ):ℚ) + 1) * 60 := by
        exact_mod_cast (by omega : S + 1 ≤ (q3 + 1) * 60)
      push_cast
      push_cast at hc
      linarith
  have hmod60 : pyMod ts 60 = ts - 60 * (((q3:ℕ) : ℤ) : ℚ) := pyMod_eval hq3
  have hr3c : ((r3:ℕ):ℚ) + 60 * ((q3:ℕ):ℚ) = (S:ℚ) := by
    exact_mod_cast (by omega : r3 + 60 * q3 = S)
  have hm60lb : ((r3:ℕ) : ℚ) ≤ pyMod ts 60 := by
    rw [hmod60]
    push_cast
    push_cast at hr3c
    linarith
  have hm60ub : pyMod ts 60 < ((r3:ℕ) : ℚ) + 1 := by
    rw [hmod60]
    push_cast
    push_cast at hr3c
    linarith
  have hsecval : ⌊pyMod ts 60⌋ = ((r3:ℕ) : ℤ) :=
    floor_of_bounds _ (by exact_mod_cast hm60lb)
      (by push_cast; linarith)
  have hseconds : pyTrunc (pyMod ts 60) = ((r3:ℕ) : ℤ) := by
    rw [pyTrunc_eq_floor (le_trans (by positivity) hm60lb), hsecval]
  -- remaining frames
  have hrdS : roundD ((((S:ℕ):ℤ)) : ℚ) = (((S:ℕ):ℤ) : ℚ) :=
    roundD_intCast (int_abs_lt_two_pow_53 (by positivity)
      (by exact_mod_cast le_trans hS (by norm_num)))
  have hReprTs : Repr53 ts := by
    rw [htsdef]
    exact roundD_repr T
  have hfsub : fsub ts ((((S:ℕ):ℤ)) : ℚ) = ts - (((S:ℕ):ℤ) : ℚ) := by
    unfold fsub
    exact roundD_eq_self (repr53_sub_int hReprTs (by positivity)
      (by exact_mod_cast hts_lb) (by push_cast; linarith))
  set fr : ℚ := ts - (((S:ℕ):ℤ) : ℚ) with hfrdef
  have hfr0 : 0 ≤ fr := by
    rw [hfrdef]
    push_cast
    linarith
  have hfr1 : fr < 1 := by
    rw [hfrdef]
    push_cast
    linarith
  have hfrv : fr * (fps:ℚ) - (f:ℚ) = (ts - T) * (fps:ℚ) := by
    rw [hfrdef, hTS]
    push_cast
    field_simp
    ring
  have hprod : |fr * (fps:ℚ) - (f:ℚ)| ≤ (360000:ℚ) * 1000 / 2^53 := by
    rw [hfrv, abs_mul]
    have hfabs : |(fps:ℚ)| ≤ 1000 := by
      rw [abs_of_nonneg (le_of_lt hfq)]
      exact hf1000
    calc |ts - T| * |(fps:ℚ)| ≤ (360000/2^53) * 1000 :=
          mul_le_mul herr hfabs (abs_nonneg _) (by positivity)
      _ = 360000 * 1000 / 2^53 := by ring
  have hy : |fr * (fps:ℚ)| ≤ 1000 := by
    rw [abs_of_nonneg (mul_nonneg hfr0 (le_of_lt hfq))]
    have hstep := mul_le_mul_of_nonneg_right (le_of_lt hfr1) (le_of_lt hfq)
    rw [one_mul] at hstep
    linarith
  have hfmul : |fmul fr (fps:ℚ) - (f:ℚ)| < 1/2 := by
    have h2 : |fmul fr (fps:ℚ) - fr * (fps:ℚ)| ≤ 1000/2^53 := by
      calc |fmul fr (fps:ℚ) - fr * (fps:ℚ)| ≤ |fr * (fps:ℚ)| / 2^53 :=
            roundD_abs_sub_le (fr * (fps:ℚ))
        _ ≤ 1000/2^53 := by
            rw [div_eq_mul_inv, div_eq_mul_inv]
            exact mul_le_mul_of_nonneg_right hy (by positivity)
    calc |fmul fr (fps:ℚ) - (f:ℚ)|
        ≤ |fmul fr (fps:ℚ) - fr * (fps:ℚ)| + |fr * (fps:ℚ) - (f:ℚ)| :=
          abs_sub_le _ _ _
      _ ≤ 1000/2^53 + 360000 * 1000 / 2^53 := add_le_add h2 hprod
      _ < 1/2 := by norm_num
  have hremaining :
      pyRound (fmul (fsub ts (roundD ((pyTrunc ts : ℤ) : ℚ))) (fps:ℚ)) =
        ((f:ℕ):ℤ) := by
    rw [htr, hrdS, hfsub]
    exact pyRound_eq_of_abs_lt (by push_cast; exact hfmul)
  rw [hhours, hminutes, hseconds, hremaining]
  rw [pad2Int_of_nonneg (by positivity), pad2Int_of_nonneg (by positivity),
    pad2Int_of_nonneg (by positivity), pad2Int_of_nonneg (by positivity)]
  rw [Int.toNat_natCast, Int.toNat_natCast, Int.toNat_natCast, Int.toNat_natCast]
  rfl

/-! ## Claim theorems: C3 and C8 (timecode engine) -/

/-- Claim C3, counterexample: `timecode_to_frames` is not total and not
always nonnegative — a non-numeric field raises `ValueError` (modelled
`none`), a negative frames field yields a negative result, and a negative
fps yields a negative result. -/
theorem c3_counterexample :
    timecode_to_frames "00:ab" 30 = none ∧
    timecode_to_frames "0:-5" 30 = some (-5) ∧
    timecode_to_frames "0:10:00" (-1) = some (-10) := by
  refine ⟨?_, ?_, ?_⟩
  · simp [timecode_to_frames, splitOnColon, replaceSemicolons, pyStrip,
      pyIntChars, isPySpace, isPyDigit, digitsToNat]
  · have he : tcFrames 0 0 0 (-5) 30 = -5 := by
      unfold tcFrames
      norm_num
      rw [show ((-5 : ℚ)) = ((-5 : ℤ) : ℚ) by norm_num, pyRound_intCast]
    simp [timecode_to_frames, splitOnColon, replaceSemicolons, pyStrip,
      pyIntChars, isPySpace, isPyDigit, digitsToNat, he]
  · have he : tcFrames 0 0 10 0 (-1) = -10 := by
      unfold tcFrames
      norm_num
      rw [show ((-10 : ℚ)) = ((-10 : ℤ) : ℚ) by norm_num, pyRound_intCast]
    simp [timecode_to_frames, splitOnColon, replaceSemicolons, pyStrip,
      pyIntChars, isPySpace, isPyDigit, digitsToNat, he]

/-- Claim C3 (amended): `timecode_to_frames` splits on `:` and `;`,
supports the 2-, 3- and 4-field forms and returns
`round((H*3600 + M*60 + S)*fps + F)` on them when every field is a valid
nonnegative integer numeral; for a nonnegative fps this result is
nonnegative.  Empty and whitespace-only input returns 0, as do unsupported
field counts (1 field, 5 fields).  (Non-integer fields raise `ValueError`,
and negative fields or a negative fps can produce a negative result — see
the counterexample.) -/
theorem c3_lenient_parse (fps : ℚ) (hfps : 0 ≤ fps) :
    (∀ h m s f : ℕ,
      timecode_to_frames (mkTc4 h m s f) fps = some (tcFrames h m s f fps) ∧
      0 ≤ tcFrames h m s f fps) ∧
    (∀ m s f : ℕ,
      timecode_to_frames (mkTc3 m s f) fps = some (tcFrames 0 m s f fps) ∧
      0 ≤ tcFrames 0 m s f fps) ∧
    (∀ s f : ℕ,
      timecode_to_frames (mkTc2 s f) fps = some (tcFrames 0 0 s f fps) ∧
      0 ≤ tcFrames 0 0 s f fps) ∧
    timecode_to_frames "" fps = some 0 ∧
    timecode_to_frames "   " fps = some 0 ∧
    (∀ a b c d e : ℕ, timecode_to_frames (mkTc5 a b c d e) fps = some 0) ∧
    (∀ n : ℕ, timecode_to_frames (String.mk (pad2Nat n)) fps = some 0) := by
  have hnn : ∀ hh mm ss ff : ℕ, 0 ≤ tcFrames hh mm ss ff fps := by
    intro hh mm ss ff
    apply pyRound_nonneg
    have h1 : (0 : ℚ) ≤ (((hh : ℤ) * 3600 + (mm : ℤ) * 60 + (ss : ℤ) : ℤ) : ℚ) := by
      push_cast
      positivity
    have h2 : (0 : ℚ) ≤ ((ff : ℤ) : ℚ) := by
      push_cast
      positivity
    have h3 : (0 : ℚ) ≤ (((hh : ℤ) * 3600 + (mm : ℤ) * 60 + (ss : ℤ) : ℤ) : ℚ) * fps :=
      mul_nonneg h1 hfps
    linarith
  refine ⟨fun h m s f => ⟨timecode_to_frames_mkTc4 h m s f fps, hnn h m s f⟩,
    fun m s f => ⟨timecode_to_frames_mkTc3 m s f fps, hnn 0 m s f⟩,
    fun s f => ⟨timecode_to_frames_mkTc2 s f fps, hnn 0 0 s f⟩,
    by simp [timecode_to_frames],
    ?_,
    fun a b c d e => timecode_to_frames_mkTc5 a b c d e fps,
    fun n => timecode_to_frames_single n fps⟩
  simp [timecode_to_frames, pyStrip, isPySpace]

/-- Witness for `c3_lenient_parse` at `fps = 24`: the spec's own examples
`parse("00:01:00:00", 24.0) == 1440` and `parse("00:00:01:12", 24.0) == 36`. -/
theorem c3_lenient_parse_witness :
    (0 : ℚ) ≤ 24 ∧
    timecode_to_frames "00:01:00:00" 24 = some 1440 ∧
    timecode_to_frames "00:00:01:12" 24 = some 36 := by
  have hc := c3_lenient_parse 24 (by norm_num)
  have h1 := (hc.1 0 1 0 0).1
  have h2 := (hc.1 0 0 1 12).1
  push_cast at h1 h2
  have hs1 : mkTc4 0 1 0 0 = "00:01:00:00" := by decide
  have hs2 : mkTc4 0 0 1 12 = "00:00:01:12" := by decide
  have he1 : tcFrames 0 1 0 0 24 = 1440 := by
    unfold tcFrames
    norm_num
    rw [show ((1440 : ℚ)) = ((1440 : ℤ) : ℚ) by norm_num, pyRound_intCast]
  have he2 : tcFrames 0 0 1 12 24 = 36 := by
    unfold tcFrames
    norm_num
    rw [show ((36 : ℚ)) = ((36 : ℤ) : ℚ) by norm_num, pyRound_intCast]
  rw [hs1, he1] at h1
  rw [hs2, he2] at h2
  exact ⟨by norm_num, h1, h2⟩

/-- Claim C8, counterexample: the frame round trip fails at `fps = 1.5`:
`"00:00:02:02"` parses to 5 frames; formatting 5 frames divides `5 / 1.5`
in double precision, which rounds UP from `10/3`, so the remainder
`(ts - int(ts)) * fps` equals exactly `0.5 + 2^-52` — just above a tie —
and rounds to 1, giving `"00:00:03:01"`; that string parses back to
`round(5.5) = 6` (a true tie, banker-rounded to the even 6), not 5. -/
theorem c8_counterexample :
    timecode_to_frames (mkTc4 0 0 2 2) (3/2) = some 5 ∧
    frames_to_timecode 5 (3/2) = some (mkTc4 0 0 3 1) ∧
    mkTc4 0 0 3 1 = "00:00:03:01" ∧
    timecode_to_frames (mkTc4 0 0 3 1) (3/2) = some 6 ∧
    (6 : ℤ) ≠ 5 := by
  refine ⟨?_, ?_, by decide, ?_, by decide⟩
  · rw [timecode_to_frames_mkTc4]
    have he : tcFrames 0 0 2 2 (3/2) = 5 := by
      unfold tcFrames
      norm_num
      rw [show ((5 : ℚ)) = ((5 : ℤ) : ℚ) by norm_num, pyRound_intCast]
    push_cast
    rw [he]
  · unfold frames_to_timecode
    rw [if_neg (by norm_num : (3/2 : ℚ) ≠ 0)]
    dsimp only
    rw [show roundD (((5:ℤ)) : ℚ) = ((5:ℤ) : ℚ) from roundD_intCast (by norm_num)]
    rw [show fdiv (((5:ℤ)) : ℚ) (3/2) = roundD (10/3) from by
      unfold fdiv
      norm_num]
    have hts : roundD (10/3 : ℚ) = 7505999378950827 / 2251799813685248 := by
      rw [roundD_eq_mul (by norm_num)
        (show (2:ℚ) ^ (1:ℤ) ≤ 10/3 from by norm_num)
        (show (10/3 : ℚ) < 2 ^ ((1:ℤ) + 1) from by norm_num)]
      rw [show ((52:ℤ) - 1) = ((51:ℕ):ℤ) from by norm_num, zpow_natCast]
      rw [show ((1:ℤ) - 52) = -(((51:ℕ)):ℤ) from by norm_num, zpow_neg, zpow_natCast]
      rw [show ((10/3 : ℚ) * 2 ^ (51:ℕ)) = 22517998136852480/3 from by norm_num]
      rw [show pyRound ((22517998136852480 : ℚ)/3) = 7505999378950827 from by
        rw [pyRound_eq, floor_of_bounds 7505999378950826 (by norm_num) (by norm_num)]
        norm_num]
      norm_num
    rw [hts]
    set tsv : ℚ := 7505999378950827 / 2251799813685248 with htsv
    have hfl3600 : ⌊tsv / (3600:ℚ)⌋ = 0 :=
      floor_of_bounds 0 (by rw [htsv]; norm_num) (by rw [htsv]; norm_num)
    have hdh : pyFloorDivF tsv 3600 = ((0:ℤ) : ℚ) :=
      pyFloorDivF_eval (by norm_num) hfl3600
        (by
          rw [show (3600:ℚ) * ((0:ℤ) : ℚ) = ((0:ℤ) : ℚ) from by norm_num]
          exact repr53_int (by norm_num))
        (by norm_num)
    have hhours : pyTrunc (pyFloorDivF tsv 3600) = 0 := by
      rw [hdh, pyTrunc_eq_floor (by norm_num), Int.floor_intCast]
    have hmod3600 : pyMod tsv 3600 = tsv := by
      rw [pyMod_eval hfl3600]
      norm_num
    have hfl60 : ⌊tsv / (60:ℚ)⌋ = 0 :=
      floor_of_bounds 0 (by rw [htsv]; norm_num) (by rw [htsv]; norm_num)
    have hdm : pyFloorDivF tsv 60 = ((0:ℤ) : ℚ) :=
      pyFloorDivF_eval (by norm_num) hfl60
        (by
          rw [show (60:ℚ) * ((0:ℤ) : ℚ) = ((0:ℤ) : ℚ) from by norm_num]
          exact repr53_int (by norm_num))
        (by norm_num)
    have hminutes : pyTrunc (pyFloorDivF (pyMod tsv 3600) 60) = 0 := by
      rw [hmod3600, hdm, pyTrunc_eq_floor (by norm_num), Int.floor_intCast]
    have hmod60 : pyMod tsv 60 = tsv := by
      rw [pyMod_eval hfl60]
      norm_num
    have hfloor3 : ⌊tsv⌋ = 3 :=
      floor_of_bounds 3 (by rw [htsv]; norm_num) (by rw [htsv]; norm_num)
    have hseconds : pyTrunc (pyMod tsv 60) = 3 := by
      rw [hmod60, pyTrunc_eq_floor (by rw [htsv]; norm_num), hfloor3]
    have htrv : pyTrunc tsv = 3 := by
      rw [pyTrunc_eq_floor (by rw [htsv]; norm_num), hfloor3]
    have hfsubv : fsub tsv ((3:ℤ) : ℚ) = 750599937895083 / 2251799813685248 := by
      unfold fsub
      rw [show tsv - ((3:ℤ) : ℚ) = 750599937895083 / 2251799813685248 from by
        rw [htsv]
        norm_num]
      exact roundD_eq_self ⟨750599937895083, -51, by
        rw [show (-51 : ℤ) = -(((51:ℕ)):ℤ) from by norm_num, zpow_neg, zpow_natCast]
        norm_num, by norm_num⟩
    have hfmulv : fmul (750599937895083 / 2251799813685248 : ℚ) (3/2) =
        2251799813685249 / 4503599627370496 := by
      unfold fmul
      rw [show (750599937895083 / 2251799813685248 : ℚ) * (3/2) =
          2251799813685249 / 4503599627370496 from by norm_num]
      exact roundD_eq_self ⟨2251799813685249, -52, by
        rw [show (-52 : ℤ) = -(((52:ℕ)):ℤ) from by norm_num, zpow_neg, zpow_natCast]
        norm_num, by norm_num⟩
    have hremaining :
        pyRound (fmul (fsub tsv (roundD ((pyTrunc tsv : ℤ) : ℚ))) (3/2)) = 1 := by
      rw [htrv, show roundD (((3:ℤ)) : ℚ) = ((3:ℤ) : ℚ) from roundD_intCast (by norm_num),
        hfsubv, hfmulv]
      rw [pyRound_eq, floor_of_bounds 0 (by norm_num) (by norm_num)]
      norm_num
    rw [hhours, hminutes, hseconds, hremaining]
    rfl
  · rw [timecode_to_frames_mkTc4]
    have he : tcFrames 0 0 3 1 (3/2) = 6 := by
      unfold tcFrames
      norm_num
      exact pyRound_eleven_halves
    push_cast
    rw [he]

/-- Claim C8 (amended): for every valid 4-field timecode (`HH ≤ 99`,
`MM, SS ≤ 59`, `FF < fps`) at every integer rate `1 ≤ fps ≤ 1000` — which
covers the integer rates the tool is used with (24, 25, 30, 60) —
formatting the parsed frame count and re-parsing reproduces it, even
through the double-precision arithmetic of `frames_to_timecode`.  At
non-integer rates the round trip can fail (see the counterexample at
`fps = 1.5`); at the parse side the products `(H*3600+M*60+S)*fps + F`
of this scope stay far below `2^53`, so Python float arithmetic computes
them exactly and the exact model of `timecode_to_frames` is faithful. -/
theorem c8_roundtrip (h m s f fps : ℕ) (hfps1 : 1 ≤ fps) (hfps2 : fps ≤ 1000)
    (hh : h ≤ 99) (hm : m ≤ 59) (hs : s ≤ 59) (hf : f < fps) :
    ∃ (n : ℤ) (tc : String),
      timecode_to_frames (mkTc4 h m s f) (fps : ℚ) = some n ∧
      frames_to_timecode n (fps : ℚ) = some tc ∧
      timecode_to_frames tc (fps : ℚ) = some n := by
  set S : ℕ := 3600 * h + 60 * m + s with hSdef
  have hS : S ≤ 359999 := by omega
  refine ⟨((S * fps + f : ℕ) : ℤ), mkTc4 (S / 3600) (S % 3600 / 60) (S % 60) f,
    ?_, frames_to_timecode_int_fps hfps1 hfps2 hS hf, ?_⟩
  · rw [timecode_to_frames_mkTc4]
    congr 1
    unfold tcFrames
    rw [show (((h:ℤ) * 3600 + (m:ℤ) * 60 + (s:ℤ) : ℤ) : ℚ) * (fps:ℚ) +
        (((f:ℕ):ℤ) : ℚ) = (((S * fps + f : ℕ) : ℤ) : ℚ) from by
      rw [hSdef]
      push_cast
      ring]
    exact pyRound_intCast _
  · rw [timecode_to_frames_mkTc4]
    congr 1
    unfold tcFrames
    set a1 : ℕ := S / 3600 with ha1def
    set a2 : ℕ := S % 3600 / 60 with ha2def
    set a3 : ℕ := S % 60 with ha3def
    have hq : ((a1:ℕ):ℚ) * 3600 + ((a2:ℕ):ℚ) * 60 + ((a3:ℕ):ℚ) = (S:ℚ) := by
      exact_mod_cast (by omega : a1 * 3600 + a2 * 60 + a3 = S)
    rw [show ((((a1:ℕ):ℤ) * 3600 + ((a2:ℕ):ℤ) * 60 +
        ((a3:ℕ):ℤ) : ℤ) : ℚ) * (fps:ℚ) + (((f:ℕ):ℤ) : ℚ) =
        (((S * fps + f : ℕ) : ℤ) : ℚ) from by
      push_cast
      linear_combination (fps:ℚ) * hq]
    exact pyRound_intCast _

/-- Witness for `c8_roundtrip` at `00:01:00:15` and 30 fps. -/
theorem c8_roundtrip_witness :
    ((1:ℕ) ≤ 30 ∧ (30:ℕ) ≤ 1000 ∧ (0:ℕ) ≤ 99 ∧ (1:ℕ) ≤ 59 ∧ (0:ℕ) ≤ 59 ∧
      (15:ℕ) < 30) ∧
    (∃ (n : ℤ) (tc : String),
      timecode_to_frames (mkTc4 0 1 0 15) ((30:ℕ) : ℚ) = some n ∧
      frames_to_timecode n ((30:ℕ) : ℚ) = some tc ∧
      timecode_to_frames tc ((30:ℕ) : ℚ) = some n) :=
  ⟨by norm_num, c8_roundtrip 0 1 0 15 30 (by norm_num) (by norm_num)
    (by norm_num) (by norm_num) (by norm_num) (by norm_num)⟩

/-! ## Evaluating `timecode_to_frames` at concrete timecodes -/

lemma timecode_value (h m s f : ℕ) (fps : ℚ) (v : ℤ)
    (hv : (((h : ℤ) * 3600 + (m : ℤ) * 60 + (s : ℤ) : ℤ) : ℚ) * fps + (((f : ℕ) : ℤ) : ℚ) = ((v : ℤ) : ℚ)) :
    timecode_to_frames (mkTc4 h m s f) fps = some v := by
  rw [timecode_to_frames_mkTc4]
  unfold tcFrames
  rw [hv, pyRound_intCast]

lemma parse30_00 : timecode_to_frames "00:00:00:00" 30 = some 0 := by
  rw [show ("00:00:00:00" : String) = mkTc4 0 0 0 0 from by decide]
  exact timecode_value 0 0 0 0 30 0 (by push_cast; norm_num)

lemma parse30_05 : timecode_to_frames "00:00:05:00" 30 = some 150 := by
  rw [show ("00:00:05:00" : String) = mkTc4 0 0 5 0 from by decide]
  exact timecode_value 0 0 5 0 30 150 (by push_cast; norm_num)

lemma parse30_10 : timecode_to_frames "00:00:10:00" 30 = some 300 := by
  rw [show ("00:00:10:00" : String) = mkTc4 0 0 10 0 from by decide]
  exact timecode_value 0 0 10 0 30 300 (by push_cast; norm_num)

lemma parse30_15 : timecode_to_frames "00:00:15:00" 30 = some 450 := by
  rw [show ("00:00:15:00" : String) = mkTc4 0 0 15 0 from by decide]
  exact timecode_value 0 0 15 0 30 450 (by push_cast; norm_num)

lemma parse30_16 : timecode_to_frames "00:00:16:00" 30 = some 480 := by
  rw [show ("00:00:16:00" : String) = mkTc4 0 0 16 0 from by decide]
  exact timecode_value 0 0 16 0 30 480 (by push_cast; norm_num)

lemma parse30_20 : timecode_to_frames "00:00:20:00" 30 = some 600 := by
  rw [show ("00:00:20:00" : String) = mkTc4 0 0 20 0 from by decide]
  exact timecode_value 0 0 20 0 30 600 (by push_cast; norm_num)

/-! ## Lemmas on the segment builder loop -/

/-- A valid GAP row always closes the open block, emits a standalone
one-row gap segment, and resets both pieces of loop state. -/
lemma buildStep_gap (fps : ℚ) (st : BuildState) (r : CsvRow) (s e : ℤ)
    (hg : r.is_gap = true) (hin : r.in_timecode ≠ "") (hout : r.out_timecode ≠ "")
    (hs : timecode_to_frames r.in_timecode fps = some s)
    (he : timecode_to_frames r.out_timecode fps = some e) (hlt : s < e) :
    buildStep fps st r = some
      { segments := st.segments ++ flushBlock st.current_block ++ [gapSegOf r s e],
        warnings := st.warnings,
        current_color := (match st.current_block with | some _ => none | none => st.current_color),
        current_block := none } := by
  unfold buildStep
  cases hcb : st.current_block with
  | none =>
    simp only [hg, hcb]
    rw [if_pos trivial]
    rw [if_neg (by simp [hin, hout])]
    rw [hs, he]
    simp only [Option.bind_eq_bind, Option.some_bind]
    rw [if_neg (not_le.mpr hlt)]
    simp [flushBlock, gapSegOf]
  | some b =>
    simp only [hg, hcb]
    rw [if_pos trivial]
    rw [if_neg (by simp [hin, hout])]
    rw [hs, he]
    simp only [Option.bind_eq_bind, Option.some_bind]
    rw [if_neg (not_le.mpr hlt)]
    simp [flushBlock, gapSegOf, List.append_assoc]

/-- A valid block row whose color matches the open block extends it: the
end frame becomes this row's out-point and the row is appended. -/
lemma buildStep_extend (fps : ℚ) (st : BuildState) (r : CsvRow) (b : Segment)
    (i o : ℤ) (hg : r.is_gap = false)
    (hin : r.in_timecode ≠ "") (hout : r.out_timecode ≠ "") (hcol : r.color ≠ "")
    (hi : timecode_to_frames r.in_timecode fps = some i)
    (ho : timecode_to_frames r.out_timecode fps = some o) (hlt : i < o)
    (hcc : st.current_color = some r.color) (hcb : st.current_block = some b) :
    buildStep fps st r = some { st with
      current_block := some { b with end_frames := o, raw_rows := b.raw_rows ++ [r] } } := by
  unfold buildStep
  simp only [hg]
  rw [if_neg (by simp)]
  rw [if_neg (by simp [hin, hout, hcol])]
  rw [hi, ho]
  simp only [Option.bind_eq_bind, Option.some_bind]
  rw [if_neg (not_le.mpr hlt)]
  rw [if_neg (by simp [hcc])]
  rw [hcb]

/-- A valid block row whose color differs from the current color closes any
open block and opens a fresh one seeded with this row. -/
lemma buildStep_open (fps : ℚ) (st : BuildState) (r : CsvRow)
    (i o : ℤ) (hg : r.is_gap = false)
    (hin : r.in_timecode ≠ "") (hout : r.out_timecode ≠ "") (hcol : r.color ≠ "")
    (hi : timecode_to_frames r.in_timecode fps = some i)
    (ho : timecode_to_frames r.out_timecode fps = some o) (hlt : i < o)
    (hcc : st.current_color ≠ some r.color) :
    buildStep fps st r = some (openedState st r.color r i o) := by
  unfold buildStep openedState openedBlock
  simp only [hg]
  rw [if_neg (by simp)]
  rw [if_neg (by simp [hin, hout, hcol])]
  rw [hi, ho]
  simp only [Option.bind_eq_bind, Option.some_bind]
  rw [if_neg (not_le.mpr hlt)]
  rw [if_pos hcc]

lemma lastOutD_cons (fps : ℚ) (d : ℤ) (r : CsvRow) (rest : List CsvRow) :
    lastOutD fps d (r :: rest) = lastOutD fps (outFramesD fps r) rest := by
  cases rest with
  | nil => rfl
  | cons r2 rest2 =>
    unfold lastOutD
    rw [List.getLast?_cons_cons]
    cases h : (r2 :: rest2).getLast? with
    | none => simp at h
    | some x => rfl

/-- Folding a run of valid same-color rows over a state with a matching
open block extends that block row by row: the end frame tracks the last
row's out-point and every row is appended. -/
lemma run_extend (fps : ℚ) (c : String) :
    ∀ (run : List CsvRow) (st : BuildState) (b : Segment),
    st.current_color = some c → st.current_block = some b →
    (∀ r ∈ run, ValidBlockRow fps c r) →
    List.foldlM (buildStep fps) st run = some { st with
      current_block := some { b with
        end_frames := lastOutD fps b.end_frames run,
        raw_rows := b.raw_rows ++ run } } := by
  intro run
  induction run with
  | nil =>
    intro st b hcc hcb _
    rw [List.foldlM_nil]
    have hb : ({ b with end_frames := lastOutD fps b.end_frames [], raw_rows := b.raw_rows ++ [] } : Segment) = b := by
      cases b
      simp [lastOutD]
    rw [hb]
    have hst : ({ st with current_block := some b } : BuildState) = st := by
      cases st
      simp_all
    rw [hst]
    rfl
  | cons r rest ih =>
    intro st b hcc hcb hrun
    obtain ⟨hc, hg, hin, hout, hcne, i, o, hi, ho, hlt⟩ := hrun r (by simp)
    rw [List.foldlM_cons]
    rw [buildStep_extend fps st r b i o hg hin hout (by rw [hc]; exact hcne) hi ho hlt (by rw [hc]; exact hcc) hcb]
    simp only [Option.bind_eq_bind, Option.some_bind]
    refine (ih _ _ ?_ rfl ?_).trans ?_
    · simpa using hcc
    · exact fun r2 h2 => hrun r2 (by simp [h2])
    · have ho2 : outFramesD fps r = o := by
        unfold outFramesD
        rw [ho]
        rfl
      rw [lastOutD_cons, ho2]
      dsimp only
      rw [List.append_assoc]
      rfl

/-- Claim C4: consecutive valid block rows of one color merge into a single
block from the first row's in-point to the last row's out-point, recording
every contributing row, and a color change — regardless of the rows'
speaker fields — closes the open block and starts a new one, so two valid
runs of distinct colors yield exactly two blocks and no warnings. -/
theorem c4_color_runs_merge (fps : ℚ) (c1 c2 : String)
    (r1 : CsvRow) (rest1 : List CsvRow) (r2 : CsvRow) (rest2 : List CsvRow)
    (h1 : ∀ r ∈ r1 :: rest1, ValidBlockRow fps c1 r)
    (h2 : ∀ r ∈ r2 :: rest2, ValidBlockRow fps c2 r)
    (hne : c1 ≠ c2) :
    build_segments ((r1 :: rest1) ++ r2 :: rest2) fps =
      some ([blockOfRun fps c1 r1 rest1, blockOfRun fps c2 r2 rest2], []) := by
  obtain ⟨hc1, hg1, hin1, hout1, hcne1, i1, o1, hi1, ho1, hlt1⟩ := h1 r1 (by simp)
  obtain ⟨hc2, hg2, hin2, hout2, hcne2, i2, o2, hi2, ho2, hlt2⟩ := h2 r2 (by simp)
  have hi1d : inFramesD fps r1 = i1 := by unfold inFramesD; rw [hi1]; rfl
  have ho1d : outFramesD fps r1 = o1 := by unfold outFramesD; rw [ho1]; rfl
  have hi2d : inFramesD fps r2 = i2 := by unfold inFramesD; rw [hi2]; rfl
  have ho2d : outFramesD fps r2 = o2 := by unfold outFramesD; rw [ho2]; rfl
  unfold build_segments
  rw [List.foldlM_append, List.foldlM_cons]
  rw [buildStep_open fps initState r1 i1 o1 hg1 hin1 hout1 (by rw [hc1]; exact hcne1) hi1 ho1 hlt1 (by simp [initState])]
  simp only [Option.bind_eq_bind, Option.some_bind]
  have hre1 := run_extend fps c1 rest1 (openedState initState r1.color r1 i1 o1)
    (openedBlock r1.color r1 i1 o1)
    (by simp [openedState, hc1]) rfl
    (fun r h => h1 r (by simp [h]))
  rw [hre1]
  simp only [Option.some_bind]
  rw [List.foldlM_cons]
  have hst2cc : ({ openedState initState r1.color r1 i1 o1 with
      current_block := some { openedBlock r1.color r1 i1 o1 with
        end_frames := lastOutD fps (openedBlock r1.color r1 i1 o1).end_frames rest1,
        raw_rows := (openedBlock r1.color r1 i1 o1).raw_rows ++ rest1 } } : BuildState).current_color ≠ some r2.color := by
    simp [openedState, hc1, hc2]
    exact fun hx => hne hx
  rw [buildStep_open fps ({ openedState initState r1.color r1 i1 o1 with
      current_block := some { openedBlock r1.color r1 i1 o1 with
        end_frames := lastOutD fps (openedBlock r1.color r1 i1 o1).end_frames rest1,
        raw_rows := (openedBlock r1.color r1 i1 o1).raw_rows ++ rest1 } })
    r2 i2 o2 hg2 hin2 hout2 (by rw [hc2]; exact hcne2) hi2 ho2 hlt2 hst2cc]
  simp only [Option.bind_eq_bind, Option.some_bind]
  have hre2 := run_extend fps c2 rest2
    (openedState ({ openedState initState r1.color r1 i1 o1 with
      current_block := some { openedBlock r1.color r1 i1 o1 with
        end_frames := lastOutD fps (openedBlock r1.color r1 i1 o1).end_frames rest1,
        raw_rows := (openedBlock r1.color r1 i1 o1).raw_rows ++ rest1 } })
      r2.color r2 i2 o2)
    (openedBlock r2.color r2 i2 o2)
    (by simp [openedState, hc2]) rfl
    (fun r h => h2 r (by simp [h]))
  rw [hre2]
  simp only [Option.some_bind]
  unfold blockOfRun
  rw [hi1d.symm, ho1d.symm, hi2d.symm, ho2d.symm] at *
  simp [openedState, openedBlock, flushBlock, initState, hc1, hc2, lastOutD_cons, ho1d, ho2d]

/-- Witness for `c4_color_runs_merge`: the spec's §8 example — Violet 0–5s
and Violet 5–10s merge into one block 0–300 at 30 fps, Rose 10–15s starts a
new block 300–450, with the speaker unchanged across the color change. -/
theorem c4_color_runs_merge_witness :
    build_segments ([rowV1, rowV2] ++ [rowRose]) 30 =
      some ([blockOfRun 30 "Violet" rowV1 [rowV2], blockOfRun 30 "Rose" rowRose []], []) ∧
    blockOfRun 30 "Violet" rowV1 [rowV2] = segV ∧
    blockOfRun 30 "Rose" rowRose [] = segR ∧
    rowRose.speaker = rowV1.speaker := by
  have hv1 : ValidBlockRow 30 "Violet" rowV1 :=
    ⟨by decide, by decide, by decide, by decide, by decide,
     0, 150, parse30_00, parse30_05, by norm_num⟩
  have hv2 : ValidBlockRow 30 "Violet" rowV2 :=
    ⟨by decide, by decide, by decide, by decide, by decide,
     150, 300, parse30_05, parse30_10, by norm_num⟩
  have hv3 : ValidBlockRow 30 "Rose" rowRose :=
    ⟨by decide, by decide, by decide, by decide, by decide,
     300, 450, parse30_10, parse30_15, by norm_num⟩
  refine ⟨c4_color_runs_merge 30 "Violet" "Rose" rowV1 [rowV2] rowRose [] ?_ ?_ (by decide), ?_, ?_, by decide⟩
  · intro r hr
    simp only [List.mem_cons, List.mem_singleton, List.not_mem_nil, or_false] at hr
    rcases hr with rfl | rfl
    · exact hv1
    · exact hv2
  · intro r hr
    simp only [List.mem_cons, List.not_mem_nil, or_false] at hr
    rcases hr with rfl
    exact hv3
  · simp [blockOfRun, inFramesD, outFramesD, lastOutD, segV,
      show rowV1.in_timecode = "00:00:00:00" from rfl,
      show rowV2.out_timecode = "00:00:10:00" from rfl,
      parse30_00, parse30_10]
    decide
  · simp [blockOfRun, inFramesD, outFramesD, lastOutD, segR,
      show rowRose.in_timecode = "00:00:10:00" from rfl,
      show rowRose.out_timecode = "00:00:15:00" from rfl,
      parse30_10, parse30_15]
    decide

/-! ## State-shift and invariant lemmas for the builder -/

lemma buildStep_shift (fps : ℚ) (r : CsvRow) (σ0 σ : List Segment)
    (ω0 ω : List String) (cc : Option String) (cb : Option Segment) :
    buildStep fps ⟨σ0 ++ σ, ω0 ++ ω, cc, cb⟩ r =
      Option.map (stateShift σ0 ω0) (buildStep fps ⟨σ, ω, cc, cb⟩ r) := by
  unfold buildStep
  cases cb <;> dsimp only <;> split_ifs <;>
    try simp [stateShift, List.append_assoc]
  all_goals
    cases hpi : timecode_to_frames r.in_timecode fps <;>
      cases hpo : timecode_to_frames r.out_timecode fps <;>
      simp [stateShift, hpi, hpo, List.append_assoc]
  all_goals split_ifs <;> simp [stateShift, List.append_assoc]

lemma foldlM_shift (fps : ℚ) (rows : List CsvRow) :
    ∀ (σ0 σ : List Segment) (ω0 ω : List String) (cc : Option String) (cb : Option Segment),
    List.foldlM (buildStep fps) ⟨σ0 ++ σ, ω0 ++ ω, cc, cb⟩ rows =
      Option.map (stateShift σ0 ω0) (List.foldlM (buildStep fps) ⟨σ, ω, cc, cb⟩ rows) := by
  induction rows with
  | nil =>
    intro σ0 σ ω0 ω cc cb
    rfl
  | cons r rows ih =>
    intro σ0 σ ω0 ω cc cb
    rw [List.foldlM_cons, List.foldlM_cons, buildStep_shift]
    cases hst : buildStep fps ⟨σ, ω, cc, cb⟩ r with
    | none => rfl
    | some st2 =>
      cases st2 with
      | mk σ2 ω2 cc2 cb2 =>
        simp only [Option.map_some, Option.bind_eq_bind, Option.some_bind, stateShift]
        exact ih σ0 σ2 ω0 ω2 cc2 cb2

lemma buildStep_inv (fps : ℚ) (st : BuildState) (r : CsvRow) (st2 : BuildState)
    (h : buildStep fps st r = some st2) (hinv : StInv st) : StInv st2 := by
  obtain ⟨hsegs, hblk, hccn⟩ := hinv
  have hblockgap : ("block" : String) ≠ "gap" := by decide
  unfold buildStep at h
  dsimp only at h
  by_cases hg : r.is_gap = true
  · rw [if_pos hg] at h
    cases hcb : st.current_block with
    | none =>
      simp only [hcb] at h
      by_cases hm : r.in_timecode = "" ∨ r.out_timecode = ""
      · rw [if_pos hm] at h
        injection h with h
        subst h
        exact ⟨hsegs, by simp [hcb], fun _ => hccn hcb⟩
      · rw [if_neg hm] at h
        cases hpi : timecode_to_frames r.in_timecode fps with
        | none => rw [hpi] at h; simp at h
        | some s =>
          cases hpo : timecode_to_frames r.out_timecode fps with
          | none => rw [hpi, hpo] at h; simp at h
          | some e =>
            rw [hpi, hpo] at h
            simp only [Option.bind_eq_bind, Option.some_bind] at h
            by_cases hle : e ≤ s
            · rw [if_pos hle] at h
              injection h with h
              subst h
              exact ⟨hsegs, by simp [hcb], fun _ => hccn hcb⟩
            · rw [if_neg hle] at h
              injection h with h
              subst h
              refine ⟨?_, by simp [hcb], fun _ => hccn hcb⟩
              intro sg hsg
              simp only [List.mem_append, List.mem_singleton] at hsg
              rcases hsg with hsg | rfl
              · exact hsegs sg hsg
              · exact ⟨fun _ => by dsimp only; omega, fun _ => by dsimp only; omega⟩
    | some b =>
      simp only [hcb] at h
      have hsb : SegInv b := by
        obtain ⟨hk, _, hl⟩ := hblk b hcb
        exact ⟨fun hgap => absurd (hk.symm.trans hgap) hblockgap, hl⟩
      by_cases hm : r.in_timecode = "" ∨ r.out_timecode = ""
      · rw [if_pos hm] at h
        injection h with h
        subst h
        refine ⟨?_, by simp, fun _ => rfl⟩
        intro sg hsg
        simp only [List.mem_append, List.mem_singleton] at hsg
        rcases hsg with hsg | rfl
        · exact hsegs sg hsg
        · exact hsb
      · rw [if_neg hm] at h
        cases hpi : timecode_to_frames r.in_timecode fps with
        | none => rw [hpi] at h; simp at h
        | some s =>
          cases hpo : timecode_to_frames r.out_timecode fps with
          | none => rw [hpi, hpo] at h; simp at h
          | some e =>
            rw [hpi, hpo] at h
            simp only [Option.bind_eq_bind, Option.some_bind] at h
            by_cases hle : e ≤ s
            · rw [if_pos hle] at h
              injection h with h
              subst h
              refine ⟨?_, by simp, fun _ => rfl⟩
              intro sg hsg
              simp only [List.mem_append, List.mem_singleton] at hsg
              rcases hsg with hsg | rfl
              · exact hsegs sg hsg
              · exact hsb
            · rw [if_neg hle] at h
              injection h with h
              subst h
              refine ⟨?_, by simp, fun _ => rfl⟩
              intro sg hsg
              simp only [List.mem_append, List.mem_singleton] at hsg
              rcases hsg with (hsg | rfl) | rfl
              · exact hsegs sg hsg
              · exact hsb
              · exact ⟨fun _ => by dsimp only; omega, fun _ => by dsimp only; omega⟩
  · rw [if_neg hg] at h
    by_cases hm : r.in_timecode = "" ∨ r.out_timecode = "" ∨ r.color = ""
    · rw [if_pos hm] at h
      injection h with h
      subst h
      exact ⟨hsegs, fun b hb => hblk b hb, fun hb => hccn hb⟩
    · rw [if_neg hm] at h
      cases hpi : timecode_to_frames r.in_timecode fps with
      | none => rw [hpi] at h; simp at h
      | some i =>
        cases hpo : timecode_to_frames r.out_timecode fps with
        | none => rw [hpi, hpo] at h; simp at h
        | some o =>
          rw [hpi, hpo] at h
          simp only [Option.bind_eq_bind, Option.some_bind] at h
          by_cases hle : o ≤ i
          · rw [if_pos hle] at h
            injection h with h
            subst h
            exact ⟨hsegs, fun b hb => hblk b hb, fun hb => hccn hb⟩
          · rw [if_neg hle] at h
            by_cases hcc : st.current_color ≠ some r.color
            · rw [if_pos hcc] at h
              injection h with h
              subst h
              refine ⟨?_, ?_, by simp⟩
              · intro sg hsg
                simp only [List.mem_append] at hsg
                rcases hsg with hsg | hsg
                · exact hsegs sg hsg
                · cases hcb : st.current_block with
                  | none =>
                    rw [hcb] at hsg
                    simp [flushBlock] at hsg
                  | some b =>
                    rw [hcb] at hsg
                    simp only [flushBlock, List.mem_singleton] at hsg
                    have hsi : SegInv b := by
                      obtain ⟨hk, _, hl⟩ := hblk b hcb
                      exact ⟨fun hgap => absurd (hk.symm.trans hgap) hblockgap, hl⟩
                    rw [hsg]
                    exact hsi
              · intro b2 hb2
                simp only [Option.some.injEq] at hb2
                subst hb2
                exact ⟨rfl, by simp, fun _ => by dsimp only; omega⟩
            · rw [if_neg hcc] at h
              cases hcb : st.current_block with
              | none =>
                simp only [hcb] at h
                simp at h
              | some b =>
                simp only [hcb] at h
                injection h with h
                subst h
                obtain ⟨hk, hbne, hl⟩ := hblk b hcb
                refine ⟨hsegs, ?_, by simp⟩
                intro b2 hb2
                simp only [Option.some.injEq] at hb2
                subst hb2
                refine ⟨hk, by simp, fun hlen => ?_⟩
                exfalso
                have hlen2 : b.raw_rows.length + 1 = 1 := by simpa using hlen
                have h0 : b.raw_rows.length = 0 := by omega
                exact hbne (List.length_eq_zero.mp h0)



lemma initState_inv : StInv initState :=
  ⟨by simp [initState], by simp [initState], fun _ => rfl⟩

lemma foldlM_inv (fps : ℚ) (rows : List CsvRow) :
    ∀ (st st2 : BuildState), List.foldlM (buildStep fps) st rows = some st2 →
    StInv st → StInv st2 := by
  induction rows with
  | nil =>
    intro st st2 h hinv
    rw [List.foldlM_nil] at h
    injection h with h
    subst h
    exact hinv
  | cons r rows ih =>
    intro st st2 h hinv
    rw [List.foldlM_cons] at h
    cases hst : buildStep fps st r with
    | none => rw [hst] at h; simp at h
    | some st1 =>
      rw [hst] at h
      simp only [Option.bind_eq_bind, Option.some_bind] at h
      exact ih st1 st2 h (buildStep_inv fps st r st1 hst hinv)

/-! ## Claim theorems: C1 (positive-length invariant) -/

/-- Claim C1, counterexample: two valid Violet rows whose second out-point
precedes the first row's in-point merge by extension into a single block
with `end_frames = 150 < start_frames = 300`, and the builder emits it with
NO warning — the `end <= start` check is only applied per row, never after
an extension overwrites the block's end frame. -/
theorem c1_counterexample :
    build_segments [c1rowA, c1rowB] 30 = some ([degBlock], []) ∧
    degBlock.end_frames ≤ degBlock.start_frames ∧ degBlock.raw_rows.length = 2 := by
  refine ⟨?_, by decide, by decide⟩
  simp [build_segments, buildStep, c1rowA, c1rowB, initState, flushBlock,
    CsvRow.is_gap, degBlock, parse30_00, parse30_05, parse30_10, parse30_20]

/-- Claim C1 (amended): every gap segment in the builder's output, and
every output segment with exactly one contributing row, satisfies
`end_frames > start_frames` (rows failing this are dropped with a warning);
but a block whose end frame is overwritten by extension can be emitted with
`end_frames ≤ start_frames` and no warning, as the counterexample shows. -/
theorem c1_positive_length (rows : List CsvRow) (fps : ℚ)
    (segs : List Segment) (warns : List String)
    (h : build_segments rows fps = some (segs, warns)) :
    ∀ sg ∈ segs, (sg.kind = "gap" ∨ sg.raw_rows.length = 1) →
      sg.start_frames < sg.end_frames := by
  unfold build_segments at h
  cases hst : List.foldlM (buildStep fps) initState rows with
  | none => rw [hst] at h; simp at h
  | some st =>
    rw [hst] at h
    simp only [Option.bind_eq_bind, Option.some_bind, Option.some.injEq,
      Prod.mk.injEq] at h
    obtain ⟨hsegs, _⟩ := h
    have hinv := foldlM_inv fps rows initState st hst initState_inv
    intro sg hsg hcase
    rw [← hsegs] at hsg
    simp only [List.mem_append] at hsg
    rcases hsg with hsg | hsg
    · obtain ⟨hgap, hone⟩ := hinv.1 sg hsg
      rcases hcase with hc | hc
      · exact hgap hc
      · exact hone hc
    · cases hcb : st.current_block with
      | none => rw [hcb] at hsg; simp [flushBlock] at hsg
      | some b =>
        rw [hcb] at hsg
        simp only [flushBlock, List.mem_singleton] at hsg
        obtain ⟨hk, _, hone⟩ := hinv.2.1 b hcb
        rcases hcase with hc | hc
        · rw [hsg] at hc
          rw [hk] at hc
          exact absurd hc (by decide)
        · rw [hsg] at hc ⊢
          exact hone hc

/-- Witness for `c1_positive_length`: a single valid Violet row produces
one single-row block with positive length. -/
theorem c1_positive_length_witness :
    build_segments [rowV1] 30 = some ([blockOfRun 30 "Violet" rowV1 []], []) ∧
    (blockOfRun 30 "Violet" rowV1 []).raw_rows.length = 1 ∧
    (blockOfRun 30 "Violet" rowV1 []).start_frames < (blockOfRun 30 "Violet" rowV1 []).end_frames := by
  have hb : build_segments [rowV1] 30 = some ([blockOfRun 30 "Violet" rowV1 []], []) := by
    simp [build_segments, buildStep, rowV1, initState, flushBlock, CsvRow.is_gap,
      parse30_00, parse30_05, blockOfRun, inFramesD, outFramesD, lastOutD]
  have hlen : (blockOfRun 30 "Violet" rowV1 []).raw_rows.length = 1 := by
    simp [blockOfRun]
  exact ⟨hb, hlen,
    c1_positive_length [rowV1] 30 _ _ hb (blockOfRun 30 "Violet" rowV1 [])
      (by simp) (Or.inr hlen)⟩

/-! ## Claim theorems: C6 (GAP rows are standalone) -/

/-- Claim C6: a GAP row (color starting case-insensitively with `GAP`) with
both timecodes present and `end > start` always closes any open block,
emits a standalone gap segment containing exactly that one row, and resets
the loop state — so the rows before and after it contribute exactly what
they would contribute on their own, and the gap merges with nothing. -/
theorem c6_gap_standalone (fps : ℚ) (rows1 rows2 : List CsvRow)
    (gapRow : CsvRow) (st1 st2 : BuildState) (s e : ℤ)
    (h1 : List.foldlM (buildStep fps) initState rows1 = some st1)
    (h2 : List.foldlM (buildStep fps) initState rows2 = some st2)
    (hg : gapRow.is_gap = true) (hin : gapRow.in_timecode ≠ "")
    (hout : gapRow.out_timecode ≠ "")
    (hs : timecode_to_frames gapRow.in_timecode fps = some s)
    (he : timecode_to_frames gapRow.out_timecode fps = some e) (hlt : s < e) :
    build_segments (rows1 ++ gapRow :: rows2) fps =
      some (st1.segments ++ flushBlock st1.current_block ++ [gapSegOf gapRow s e] ++
              st2.segments ++ flushBlock st2.current_block,
            st1.warnings ++ st2.warnings) := by
  unfold build_segments
  rw [List.foldlM_append, h1]
  simp only [Option.bind_eq_bind, Option.some_bind]
  rw [List.foldlM_cons]
  rw [buildStep_gap fps st1 gapRow s e hg hin hout hs he hlt]
  simp only [Option.bind_eq_bind, Option.some_bind]
  have hinv := foldlM_inv fps rows1 initState st1 h1 initState_inv
  have hccX : (match st1.current_block with
      | some _ => none
      | none => st1.current_color) = (none : Option String) := by
    cases hcb : st1.current_block with
    | some b => rfl
    | none => exact hinv.2.2 hcb
  rw [hccX]
  have hsh := foldlM_shift fps rows2
    (st1.segments ++ flushBlock st1.current_block ++ [gapSegOf gapRow s e]) []
    st1.warnings [] none none
  rw [List.append_nil, List.append_nil] at hsh
  have h2x : List.foldlM (buildStep fps) ⟨[], [], none, none⟩ rows2 = some st2 := h2
  rw [h2x] at hsh
  rw [hsh]
  simp [stateShift, List.append_assoc]

/-- Witness for `c6_gap_standalone`: Violet 0–5s, Violet 5–10s, a GAP row
15–16s, then Rose 10–15s — the GAP row closes the merged Violet block,
stands alone as `segGap`, and the following Rose row opens a fresh block. -/
theorem c6_gap_standalone_witness :
    build_segments ([rowV1, rowV2] ++ rowGap :: [rowRose]) 30 =
      some ([segV, segGap, segR], []) := by
  have h1 : List.foldlM (buildStep 30) initState [rowV1, rowV2] =
      some ⟨[], [], some "Violet", some segV⟩ := by
    simp [List.foldlM, buildStep, rowV1, rowV2, initState, flushBlock,
      CsvRow.is_gap, parse30_00, parse30_05, parse30_10, segV]
  have h2 : List.foldlM (buildStep 30) initState [rowRose] =
      some ⟨[], [], some "Rose", some segR⟩ := by
    simp [List.foldlM, buildStep, rowRose, initState, flushBlock,
      CsvRow.is_gap, parse30_10, parse30_15, segR]
  have hmain := c6_gap_standalone 30 [rowV1, rowV2] [rowRose] rowGap
    ⟨[], [], some "Violet", some segV⟩ ⟨[], [], some "Rose", some segR⟩ 450 480
    h1 h2 (by decide) (by decide) (by decide) parse30_15 parse30_16 (by norm_num)
  rw [hmain]
  rfl

/-! ## Claim theorems: C9 (color mapping is total) -/

lemma list_lookup_mem : ∀ (l : List (String × String)) (k v : String),
    l.lookup k = some v → v ∈ l.map Prod.snd := by
  intro l
  induction l with
  | nil =>
    intro k v h
    simp [List.lookup] at h
  | cons p rest ih =>
    intro k v h
    cases p with
    | mk a b =>
      simp only [List.lookup] at h
      by_cases hk : (k == a) = true
      · rw [hk] at h
        simp only at h
        injection h with h
        subst h
        simp
      · have hk2 : (k == a) = false := by
          simpa using hk
        rw [hk2] at h
        simp only at h
        have := ih k v h
        simp only [List.map_cons, List.mem_cons]
        exact Or.inr this

/-- Claim C9: both color-mapping functions are total over all strings —
`color_to_premiere_label` always lands in the 16-label Premiere vocabulary
and `color_to_davinci` always lands in the 17-color DaVinci vocabulary,
falling back to the fixed defaults (`Caribbean` / `blue`), with no
exception path. -/
theorem c9_color_mapping_total (color : String) :
    color_to_premiere_label color ∈ VALID_LABELS ∧
    color_to_davinci color ∈ DAVINCI_COLORS := by
  have hsub1 : ∀ x ∈ LEGACY_COLOR_MAP.map Prod.snd, x ∈ VALID_LABELS := by decide
  have hsub2 : ∀ x ∈ PREMIERE_TO_DAVINCI.map Prod.snd, x ∈ DAVINCI_COLORS := by decide
  have hsub3 : ∀ x ∈ COLOR_TO_DAVINCI.map Prod.snd, x ∈ DAVINCI_COLORS := by decide
  constructor
  · unfold color_to_premiere_label
    split_ifs with h1 h2
    · decide
    · exact h2
    · cases hlk : List.lookup (pyLower color) LEGACY_COLOR_MAP with
      | none => decide
      | some v => exact hsub1 v (list_lookup_mem LEGACY_COLOR_MAP (pyLower color) v hlk)
  · unfold color_to_davinci
    by_cases h1 : (color = "" ∨ pyStripStr color = "")
    · rw [if_pos h1]
      decide
    · rw [if_neg h1]
      cases hlk : List.lookup color PREMIERE_TO_DAVINCI with
      | some v => exact hsub2 v (list_lookup_mem PREMIERE_TO_DAVINCI color v hlk)
      | none =>
        cases hlk2 : List.lookup (pyLower color) COLOR_TO_DAVINCI with
        | some v => exact hsub3 v (list_lookup_mem COLOR_TO_DAVINCI (pyLower color) v hlk2)
        | none =>
          by_cases h3 : pyLower color ∈ DAVINCI_COLORS
          · rw [if_pos h3]
            exact h3
          · rw [if_neg h3]
            decide

/-! ## Claim theorems: C5 (writer cursor walk and the §8 scenario) -/

lemma davinciStep_gap (g : ℤ) (ps : List SpinePos) (pos : ℤ) {sg : Segment}
    (hg : sg.is_gap = true) :
    davinciStep g (ps, pos) sg = (ps, pos + sg.duration_frames) := by
  unfold davinciStep
  dsimp only
  rw [if_pos hg]

lemma davinciStep_block (g : ℤ) (ps : List SpinePos) (pos : ℤ) {sg : Segment}
    (hg : sg.is_gap = false) :
    davinciStep g (ps, pos) sg =
      (ps ++ [{ start := pos + g, duration := sg.duration_frames, source_start := sg.start_frames, color := sg.color }],
       pos + g + sg.duration_frames) := by
  unfold davinciStep
  dsimp only
  rw [if_neg (by simp [hg])]

lemma davinci_fold (g : ℤ) (segs : List Segment) :
    ∀ (ps : List SpinePos) (pos : ℤ),
    (segs.foldl (davinciStep g) (ps, pos)).2 =
      pos + (segs.map Segment.duration_frames).sum +
        g * (segs.countP (fun sg => !sg.is_gap)) ∧
    (segs.foldl (davinciStep g) (ps, pos)).1.length =
      ps.length + (segs.countP (fun sg => !sg.is_gap)) := by
  induction segs with
  | nil =>
    intro ps pos
    simp
  | cons sg rest ih =>
    intro ps pos
    rw [List.foldl_cons]
    by_cases hg : sg.is_gap = true
    · rw [davinciStep_gap g ps pos hg]
      obtain ⟨ha, hb⟩ := ih ps (pos + sg.duration_frames)
      refine ⟨?_, ?_⟩
      · rw [ha, List.countP_cons]
        simp [hg]
        ring
      · rw [hb, List.countP_cons]
        simp [hg]
    · have hg2 : sg.is_gap = false := by
        simpa using hg
      rw [davinciStep_block g ps pos hg2]
      obtain ⟨ha, hb⟩ := ih (ps ++ [{ start := pos + g, duration := sg.duration_frames, source_start := sg.start_frames, color := sg.color }]) (pos + g + sg.duration_frames)
      refine ⟨?_, ?_⟩
      · rw [ha, List.countP_cons]
        simp [hg2]
        ring
      · rw [hb, List.countP_cons]
        simp [hg2]
        omega

/-! ## Lemmas on the XMEML writer walk -/

lemma premiereTrackStep_gap (mfs : List MediaFile) (ti : ℕ) (g : ℤ)
    (cl : List ClipTiming) (pos mx : ℤ) {sg : Segment} (hg : sg.is_gap = true) :
    premiereTrackStep mfs ti g (cl, pos, mx) sg =
      Except.ok (cl, pos + sg.duration_frames, mx) := by
  unfold premiereTrackStep
  dsimp only
  rw [if_pos hg]

lemma premiereTrackStep_block (mfs : List MediaFile) (ti : ℕ) (g : ℤ)
    (cl : List ClipTiming) (pos mx : ℤ) {sg : Segment} (hg : sg.is_gap = false) :
    premiereTrackStep mfs ti g (cl, pos, mx) sg =
      Except.error "AttributeError: Segment object has no attribute file_name" := by
  unfold premiereTrackStep
  dsimp only
  rw [if_neg (by simp [hg])]
  rfl

/-- A walk over gap segments only succeeds, emits no clip, and advances the
cursor by the sum of the gap durations. -/
lemma premiere_fold_ok (mfs : List MediaFile) (ti : ℕ) (g : ℤ) :
    ∀ (segs : List Segment) (cl : List ClipTiming) (pos mx : ℤ),
    (∀ sg ∈ segs, sg.is_gap = true) →
    segs.foldlM (premiereTrackStep mfs ti g) (cl, pos, mx) =
      Except.ok (cl, pos + (segs.map Segment.duration_frames).sum, mx) := by
  intro segs
  induction segs with
  | nil =>
    intro cl pos mx hall
    rw [List.foldlM_nil, List.map_nil, List.sum_nil, add_zero]
    rfl
  | cons sg rest ih =>
    intro cl pos mx hall
    rw [List.foldlM_cons]
    rw [premiereTrackStep_gap mfs ti g cl pos mx (hall sg (by simp))]
    rw [show (Except.ok (cl, pos + sg.duration_frames, mx) >>=
        fun acc => rest.foldlM (premiereTrackStep mfs ti g) acc :
        Except String (List ClipTiming × ℤ × ℤ)) =
        rest.foldlM (premiereTrackStep mfs ti g) (cl, pos + sg.duration_frames, mx)
        from rfl]
    rw [ih cl (pos + sg.duration_frames) mx (fun x hx => hall x (by simp [hx]))]
    rw [List.map_cons, List.sum_cons]
    rw [show pos + sg.duration_frames + (List.map Segment.duration_frames rest).sum =
        pos + (sg.duration_frames + (List.map Segment.duration_frames rest).sum)
        from by ring]

/-- As soon as the walk contains one block segment, the whole walk raises
`AttributeError` (the `seg.file_name` read of line 373). -/
lemma premiere_fold_error (mfs : List MediaFile) (ti : ℕ) (g : ℤ) :
    ∀ (segs : List Segment) (acc : List ClipTiming × ℤ × ℤ),
    (∃ sg ∈ segs, sg.is_gap = false) →
    segs.foldlM (premiereTrackStep mfs ti g) acc =
      Except.error "AttributeError: Segment object has no attribute file_name" := by
  intro segs
  induction segs with
  | nil =>
    intro acc hex
    obtain ⟨sg, hmem, _⟩ := hex
    exact absurd hmem (by simp)
  | cons sg rest ih =>
    intro acc hex
    obtain ⟨cl, pos, mx⟩ := acc
    rw [List.foldlM_cons]
    by_cases hg : sg.is_gap = true
    · rw [premiereTrackStep_gap mfs ti g cl pos mx hg]
      rw [show (Except.ok (cl, pos + sg.duration_frames, mx) >>=
          fun acc => rest.foldlM (premiereTrackStep mfs ti g) acc :
          Except String (List ClipTiming × ℤ × ℤ)) =
          rest.foldlM (premiereTrackStep mfs ti g) (cl, pos + sg.duration_frames, mx)
          from rfl]
      apply ih
      obtain ⟨sg2, hmem, hb⟩ := hex
      rcases List.mem_cons.mp hmem with heq | hmem2
      · rw [heq] at hb
        rw [hb] at hg
        exact absurd hg (by simp)
      · exact ⟨sg2, hmem2, hb⟩
    · have hg2 : sg.is_gap = false := by
        simpa using hg
      rw [premiereTrackStep_block mfs ti g cl pos mx hg2]
      rfl

/-- Claim C5, counterexample: on the §8 scenario the claimed duration
formula fails — the DaVinci sequence duration is 540 frames, not the
claim's sum of block durations plus one 30-frame inserted gap per block
(510) nor per interior boundary (480), because the CSV GAP segment's own
30 frames also advance the cursor; and the XMEML writer emits no
clipitem at all on this scenario — it raises `AttributeError` at the
first block segment. -/
theorem c5_counterexample :
    build_segments [rowV1, rowV2, rowRose, rowGap] 30 = some ([segV, segR, segGap], []) ∧
    gapFrames 30 1 = 30 ∧
    (davinciTimeline [segV, segR, segGap] 30).2 = 540 ∧
    segV.duration_frames + segR.duration_frames + 30 * 2 = 510 ∧
    segV.duration_frames + segR.duration_frames + 30 * 1 = 480 ∧
    ((540 : ℤ) ≠ 510 ∧ (540 : ℤ) ≠ 480) ∧
    premiereTrack [mfA, mfB] 0 [segV, segR, segGap] 30 =
      Except.error "AttributeError: Segment object has no attribute file_name" := by
  refine ⟨?_, ?_, by decide, by decide, by decide, by decide, ?_⟩
  · simp [build_segments, buildStep, rowV1, rowV2, rowRose, rowGap, initState,
      flushBlock, CsvRow.is_gap, parse30_00, parse30_05, parse30_10, parse30_15,
      parse30_16, segV, segR, segGap]
  · unfold gapFrames
    rw [show ((30 : ℚ) * 1) = ((30 : ℤ) : ℚ) by norm_num, pyRound_intCast]
  · unfold premiereTrack
    exact premiere_fold_error [mfA, mfB] 0 30 [segV, segR, segGap] ([], 0, 0)
      ⟨segV, by simp, by decide⟩

/-- Claim C5 (amended): the DaVinci writer's cursor walk advances by each
gap segment's duration AND inserts `gap_frames = round(fps * gapSeconds)`
frames before every block, emits exactly one clip per block, and sets the
output sequence duration to the cursor's end value — so the duration is
the sum of ALL segment durations (gaps included) plus one inserted gap
per block.  For the §8 scenario (two Violet rows merging into one block,
one Rose block, one GAP row, 30 fps, `gapSeconds = 1.0`) the duration is
540 = (300 + 150) + 30 * 2 + 30, with exactly 2 clip entries for the 2
post-merge blocks.  The XMEML writer walks the same cursor over gap
segments but raises `AttributeError` at the first block segment (the
`seg.file_name` read), so it emits clipitems only for segment lists with
no blocks — i.e. never any clipitem. -/
theorem c5_davinci_cursor :
    (∀ (segs : List Segment) (g : ℤ),
      (davinciTimeline segs g).2 =
        (segs.map Segment.duration_frames).sum +
          g * (segs.countP (fun sg => !sg.is_gap)) ∧
      (davinciTimeline segs g).1.length = segs.countP (fun sg => !sg.is_gap)) ∧
    gapFrames 30 1 = 30 ∧
    build_segments [rowV1, rowV2, rowRose, rowGap] 30 = some ([segV, segR, segGap], []) ∧
    davinciTimeline [segV, segR, segGap] 30 =
      ([{ start := 30, duration := 300, source_start := 0, color := some "Violet" },
        { start := 360, duration := 150, source_start := 300, color := some "Rose" }], 540) ∧
    (540 : ℤ) = (300 + 150) + 30 * 2 + 30 ∧
    davinciSequenceDuration [segV, segR, segGap] 30 30 = "540/30s" ∧
    (∀ (mfs : List MediaFile) (ti : ℕ) (segs : List Segment) (g : ℤ),
      (∀ sg ∈ segs, sg.is_gap = true) →
      premiereTrack mfs ti segs g =
        Except.ok ([], (segs.map Segment.duration_frames).sum, 0)) ∧
    (∀ (mfs : List MediaFile) (ti : ℕ) (segs : List Segment) (g : ℤ),
      (∃ sg ∈ segs, sg.is_gap = false) →
      premiereTrack mfs ti segs g =
        Except.error "AttributeError: Segment object has no attribute file_name") := by
  refine ⟨?_, ?_, ?_, by decide, by norm_num, ?_, ?_, ?_⟩
  · intro segs g
    obtain ⟨ha, hb⟩ := davinci_fold g segs [] 0
    unfold davinciTimeline
    rw [ha, hb]
    simp
  · unfold gapFrames
    rw [show ((30 : ℚ) * 1) = ((30 : ℤ) : ℚ) by norm_num, pyRound_intCast]
  · simp [build_segments, buildStep, rowV1, rowV2, rowRose, rowGap, initState,
      flushBlock, CsvRow.is_gap, parse30_00, parse30_05, parse30_10, parse30_15,
      parse30_16, segV, segR, segGap]
  · unfold davinciSequenceDuration frames_to_rational
    rw [if_neg (by rw [abs_lt]; norm_num), if_neg (by rw [abs_lt]; norm_num),
      if_neg (by rw [abs_lt]; norm_num)]
    rw [show (davinciTimeline [segV, segR, segGap] 30).2 = 540 from by decide]
    rw [show pyRound (30 : ℚ) = 30 from by
      rw [show ((30 : ℚ)) = ((30 : ℤ) : ℚ) by norm_num, pyRound_intCast]]
    decide
  · intro mfs ti segs g hall
    unfold premiereTrack
    rw [premiere_fold_ok mfs ti g segs [] 0 0 hall]
    rw [zero_add]
  · intro mfs ti segs g hex
    exact premiere_fold_error mfs ti g segs ([], 0, 0) hex

/-! ## Claim theorems: C10 (duration clamping and degenerate clips) -/

/-- Claim C10, counterexample: the degenerate block produced by the C1
extension overwrite (`end_frames = 150 ≤ 300 = start_frames`) is NOT
rendered by the XMEML writer as a zero-length clip — the walk raises
`AttributeError` at the `seg.file_name` read (premiere.py line 373)
before the timing writes of lines 386-393 ever execute. -/
theorem c10_counterexample :
    degBlock.end_frames ≤ degBlock.start_frames ∧
    premiereTrack [mfA, mfB] 0 [degBlock] 30 =
      Except.error "AttributeError: Segment object has no attribute file_name" := by
  refine ⟨by decide, ?_⟩
  unfold premiereTrack
  exact premiere_fold_error [mfA, mfB] 0 30 [degBlock] ([], 0, 0)
    ⟨degBlock, by simp, by decide⟩

/-- Claim C10 (amended): `Segment.duration_frames` is `max(0, end - start)`,
never negative, and zero whenever `end_frames ≤ start_frames`.  The clip
timing of `generate_premiere_xml` lines 386-393 would therefore render a
degenerate segment as a zero-length interval (timeline end = start), but
that code is unreachable: the per-track walk raises `AttributeError` at
the `seg.file_name` read of line 373 for every block segment.  The
DaVinci writer, which never reads `file_name`, does reach its rendering
code and emits a degenerate block as a zero-length timeline entry whose
cursor does not advance past the inserted gap. -/
theorem c10_duration_clamped :
    (∀ sg : Segment,
      sg.duration_frames = max 0 (sg.end_frames - sg.start_frames) ∧
      0 ≤ sg.duration_frames ∧
      (sg.end_frames ≤ sg.start_frames → sg.duration_frames = 0)) ∧
    (∀ (pos : ℤ) (sg : Segment), sg.end_frames ≤ sg.start_frames →
      (clipTimingOf pos sg).timelineEnd = (clipTimingOf pos sg).timelineStart) ∧
    (∀ (mfs : List MediaFile) (ti : ℕ) (g : ℤ) (cl : List ClipTiming)
      (pos mx : ℤ) (sg : Segment), sg.is_gap = false →
      premiereTrackStep mfs ti g (cl, pos, mx) sg =
        Except.error "AttributeError: Segment object has no attribute file_name") ∧
    (∀ (g pos : ℤ) (ps : List SpinePos) (sg : Segment),
      sg.is_gap = false → sg.end_frames ≤ sg.start_frames →
      davinciStep g (ps, pos) sg =
        (ps ++ [{ start := pos + g, duration := 0,
                  source_start := sg.start_frames, color := sg.color }], pos + g)) ∧
    davinciStep 30 ([], 0) degBlock =
      ([{ start := 30, duration := 0, source_start := 300, color := some "Violet" }], 30) := by
  refine ⟨?_, ?_, ?_, ?_, by decide⟩
  · intro sg
    refine ⟨rfl, ?_, ?_⟩
    · unfold Segment.duration_frames
      exact le_max_left 0 _
    · intro hle
      unfold Segment.duration_frames
      omega
  · intro pos sg hle
    unfold clipTimingOf
    dsimp only
    unfold Segment.duration_frames
    omega
  · intro mfs ti g cl pos mx sg hg
    exact premiereTrackStep_block mfs ti g cl pos mx hg
  · intro g pos ps sg hg hle
    have hd0 : sg.duration_frames = 0 := by
      unfold Segment.duration_frames
      omega
    rw [davinciStep_block g ps pos hg, hd0, add_zero]

/-! ## Claim theorems: C2 (per-clip media resolution) -/

/-- Claim C2, code evidence: the `Segment` dataclass declares no
`file_name` field, so the XMEML writer's per-clip media resolution
(`find_media_file(media_files, seg.file_name, track_idx)`) raises
`AttributeError` for EVERY segment, instead of resolving media; the
resolution logic itself (`find_media_file`), when handed an explicit
optional file name, does behave as the claim describes — exact then
case-insensitive then substring match, else track-index fallback clamped
to the last file. -/
theorem c2_file_name_attribute_error :
    (∀ (mfs : List MediaFile) (sg : Segment) (idx : ℕ),
      resolveSegmentMedia mfs sg idx =
        Except.error "AttributeError: Segment object has no attribute file_name") ∧
    ¬ ("file_name" ∈ segmentFields) ∧
    resolveSegmentMedia [mfA, mfB] demoBlock 0 =
      Except.error "AttributeError: Segment object has no attribute file_name" ∧
    find_media_file [mfA, mfB] (some "Cam2.mov") 0 = some mfB ∧
    find_media_file [mfA, mfB] (some "cam2.mov") 0 = some mfB ∧
    find_media_file [mfA, mfB] (some "Cam2") 0 = some mfB ∧
    find_media_file [mfA, mfB] none 0 = some mfA ∧
    find_media_file [mfA, mfB] none 1 = some mfB ∧
    find_media_file [mfA, mfB] none 10 = some mfB := by
  refine ⟨fun mfs sg idx => rfl, by decide, rfl, by decide, by decide, by decide,
    by decide, by decide, by decide⟩

/-! ## Claim theorems: C7 (`parse_csv` behaviour) -/

lemma csv_foldl_filterMap (fieldnames : List String) :
    ∀ (data : List (List String)) (acc : List CsvRow),
    data.foldl (fun acc row =>
      if row = [] then acc
      else
        let speaker := cellOf fieldnames row "Speaker Name"
        let in_tc := cellOf fieldnames row "イン点"
        let out_tc := cellOf fieldnames row "アウト点"
        let text := cellOf fieldnames row "文字起こし"
        let color := cellOf fieldnames row "色選択"
        if in_tc = "" ∧ out_tc = "" ∧ color = "" then acc
        else acc ++ [{ speaker := speaker, in_timecode := in_tc, out_timecode := out_tc, transcript := text, color := color }]) acc =
    acc ++ data.filterMap (rowOfRecord fieldnames) := by
  intro data
  induction data with
  | nil =>
    intro acc
    simp
  | cons row rest ih =>
    intro acc
    rw [List.foldl_cons, List.filterMap_cons]
    by_cases h0 : row = []
    · rw [if_pos h0]
      rw [show rowOfRecord fieldnames row = none from by unfold rowOfRecord; rw [if_pos h0]]
      exact ih acc
    · rw [if_neg h0]
      dsimp only
      by_cases h1 : cellOf fieldnames row "イン点" = "" ∧
          cellOf fieldnames row "アウト点" = "" ∧ cellOf fieldnames row "色選択" = ""
      · rw [if_pos h1]
        rw [show rowOfRecord fieldnames row = none from by
          unfold rowOfRecord
          rw [if_neg h0]
          dsimp only
          rw [if_pos h1]]
        exact ih acc
      · rw [if_neg h1]
        rw [show rowOfRecord fieldnames row = some { speaker := cellOf fieldnames row "Speaker Name", in_timecode := cellOf fieldnames row "イン点", out_timecode := cellOf fieldnames row "アウト点", transcript := cellOf fieldnames row "文字起こし", color := cellOf fieldnames row "色選択" } from by
          unfold rowOfRecord
          rw [if_neg h0]
          dsimp only
          rw [if_neg h1]]
        rw [ih]
        rw [List.append_assoc]
        rfl

lemma parse_csv_cons (fieldnames : List String) (data : List (List String)) :
    parse_csv (some (fieldnames :: data)) =
      if TARGET_HEADERS.filter (fun h => ¬ (h ∈ fieldnames)) ≠ []
      then Except.error (CsvError.missingHeaders
        (TARGET_HEADERS.filter (fun h => ¬ (h ∈ fieldnames))))
      else Except.ok (data.filterMap (rowOfRecord fieldnames)) := by
  by_cases hm : TARGET_HEADERS.filter (fun h => ¬ (h ∈ fieldnames)) ≠ []
  · rw [if_pos hm]
    exact if_pos hm
  · rw [if_neg hm]
    refine Eq.trans (if_neg hm) ?_
    rw [csv_foldl_filterMap fieldnames data []]
    rw [List.nil_append]

/-- Claim C7: `parse_csv` raises `FileNotFoundError` exactly when the CSV
resource is missing; on a file with a header row it raises a
`CsvFormatError` naming the missing headers exactly when some required
header is absent (the named list being precisely the absent required
headers, in order); otherwise it returns the data rows in input order,
each field trimmed, skipping exactly the rows with no in-point, no
out-point and no color (blank records are skipped by `DictReader`). -/
theorem c7_parse_csv_spec :
    parse_csv none = Except.error CsvError.notFound ∧
    (∀ file : List (List String),
      parse_csv (some file) ≠ Except.error CsvError.notFound) ∧
    (∀ (fieldnames : List String) (data : List (List String)) (m : List String),
      parse_csv (some (fieldnames :: data)) = Except.error (CsvError.missingHeaders m) ↔
        m = TARGET_HEADERS.filter (fun h => ¬ (h ∈ fieldnames)) ∧ m ≠ []) ∧
    (∀ (fieldnames : List String) (data : List (List String)),
      TARGET_HEADERS.filter (fun h => ¬ (h ∈ fieldnames)) = [] →
      parse_csv (some (fieldnames :: data)) =
        Except.ok (data.filterMap (rowOfRecord fieldnames))) := by
  refine ⟨rfl, ?_, ?_, ?_⟩
  · intro file h
    cases file with
    | nil =>
      rw [show parse_csv (some []) = Except.error CsvError.emptyHeaders from rfl] at h
      exact CsvError.noConfusion (Except.error.inj h)
    | cons fieldnames data =>
      rw [parse_csv_cons] at h
      by_cases hm : TARGET_HEADERS.filter (fun hh => ¬ (hh ∈ fieldnames)) ≠ []
      · rw [if_pos hm] at h
        exact CsvError.noConfusion (Except.error.inj h)
      · rw [if_neg hm] at h
        exact Except.noConfusion h
  · intro fieldnames data m
    rw [parse_csv_cons]
    by_cases hm : TARGET_HEADERS.filter (fun h => ¬ (h ∈ fieldnames)) ≠ []
    · rw [if_pos hm]
      constructor
      · intro h
        have h2 := CsvError.missingHeaders.inj (Except.error.inj h)
        exact ⟨h2.symm, h2 ▸ hm⟩
      · rintro ⟨h1, h2⟩
        rw [h1]
    · rw [if_neg hm]
      constructor
      · intro h
        exact Except.noConfusion h
      · rintro ⟨h1, h2⟩
        push_neg at hm
        rw [hm] at h1
        exact absurd h1 h2
  · intro fieldnames data hempty
    rw [parse_csv_cons, if_neg (by push_neg; exact hempty)]

/-- Witness for `c7_parse_csv_spec`: a file with the exact required
headers, one valid data row, one blank record, and one row with only a
transcript (skipped) parses to exactly one trimmed row. -/
theorem c7_parse_csv_spec_witness :
    TARGET_HEADERS.filter (fun h => ¬ (h ∈ TARGET_HEADERS)) = [] ∧
    parse_csv (some (TARGET_HEADERS ::
        [["田丸", " 00:00:00:00", "00:00:05:00 ", "a1", "Violet"], [],
         ["", "", "", "note", ""]])) =
      Except.ok [{ speaker := "田丸", in_timecode := "00:00:00:00", out_timecode := "00:00:05:00", transcript := "a1", color := "Violet" }] := by
  have hf : TARGET_HEADERS.filter (fun h => ¬ (h ∈ TARGET_HEADERS)) = [] := by decide
  refine ⟨hf, ?_⟩
  rw [c7_parse_csv_spec.2.2.2 TARGET_HEADERS _ hf]
  rfl

end CsvToXml
